import Mathlib

/-!
Verification development for the promptman-test core: the Value Matcher
(`checkArgValue` in assertions.ts and `matchesArgValue` in mocks.ts), the
Mock Resolver (`resolveMocks`, mocks.ts), the Assertion Engine
(`evaluateStepAssertions`, `evaluateGlobalAssertions`, assertions.ts) and the
Conversation Executor (`executeTest`, executor.ts), shallowly embedded in Lean.

Modelling conventions:
* JavaScript runtime values (parsed JSON, predicate objects) are the inductive
  `JsValue`.  Numbers are modelled as integers (`Int`), with NaN represented by
  `none` in the `Option Int` result of numeric coercion; numeric string parsing
  is restricted to optionally signed decimal integer literals.  Floating-point
  specifics are outside the modelled fragment.
* Host facilities the code calls into are parameters gathered in `Host`:
  `new RegExp(p)` is `compileRegex p` (compilation of an invalid pattern, which
  throws a SyntaxError in JS, is `none`, and a compiled regex is abstracted as
  the string predicate `String → Bool` that `re.test` implements), and
  `JSON.parse` with a surrounding try/catch is `parseJson` (`none` = throw).
* Exceptions propagate as `Except String`; a thrown JS error is `.error msg`.
* JS truthiness of optional strings (`if (s)`) is `jsStrOptTruthy`.
-/

namespace Promptman

/-- JSON-like JavaScript runtime value. -/
inductive JsValue where
  | null
  | undefined
  | bool (b : Bool)
  | num (n : Int)
  | str (s : String)
  | arr (elems : List JsValue)
  | obj (fields : List (String × JsValue))

/-- `String.prototype.includes` on character lists. -/
def charsIncludes (needle : List Char) : List Char → Bool
  | [] => needle.isEmpty
  | c :: rest => needle.isPrefixOf (c :: rest) || charsIncludes needle rest

/-- `hay.includes(needle)` of JS strings. -/
def strIncludes (hay needle : String) : Bool :=
  charsIncludes needle.data hay.data

/-- Decimal digit-string to `Nat`; `none` when empty or any non-digit occurs. -/
def digitsToNat (cs : List Char) : Option Nat :=
  if cs.isEmpty then none
  else if cs.all (·.isDigit) then
    some (cs.foldl (fun acc c => acc * 10 + (c.toNat - '0'.toNat)) 0)
  else none

/-- JS `Number(string)` restricted to the modelled fragment: trimmed empty
string is 0, optionally signed decimal integers parse, everything else is NaN
(`none`). -/
def numFromString (s : String) : Option Int :=
  let t := s.trim
  if t = "" then some 0
  else
    match t.data with
    | '+' :: rest => (digitsToNat rest).map Int.ofNat
    | '-' :: rest => (digitsToNat rest).map (fun n => -(n : Int))
    | cs => (digitsToNat cs).map Int.ofNat

mutual

/-- JS `String(v)` coercion.  Arrays join their elements with commas
(`Array.prototype.join`, which renders null/undefined elements as the empty
string); plain objects render as `[object Object]`. -/
def jsToString : JsValue → String
  | .null => "null"
  | .undefined => "undefined"
  | .bool true => "true"
  | .bool false => "false"
  | .num n => toString n
  | .str s => s
  | .arr xs => jsArrJoin xs
  | .obj _ => "[object Object]"

/-- Comma join used by `String(array)`. -/
def jsArrJoin : List JsValue → String
  | [] => ""
  | x :: xs =>
    let hd :=
      match x with
      | .null => ""
      | .undefined => ""
      | v => jsToString v
    match xs with
    | [] => hd
    | _ :: _ => hd ++ "," ++ jsArrJoin xs

end

/-- JS `Number(v)` coercion; `none` is NaN.  Arrays and objects go through
their string form (ToPrimitive). -/
def jsToNumber : JsValue → Option Int
  | .null => some 0
  | .undefined => none
  | .bool true => some 1
  | .bool false => some 0
  | .num n => some n
  | .str s => numFromString s
  | v => numFromString (jsToString v)

/-- `String(v ?? '')`: the `actualStr` computation of both matchers. -/
def jsToStringOrEmpty : JsValue → String
  | .null => ""
  | .undefined => ""
  | v => jsToString v

/-- `a >= b` on JS numbers: any NaN operand makes the comparison false. -/
def jsGe : Option Int → Option Int → Bool
  | some a, some b => decide (a ≥ b)
  | _, _ => false

/-- `a <= b` on JS numbers; NaN makes it false. -/
def jsLe : Option Int → Option Int → Bool
  | some a, some b => decide (a ≤ b)
  | _, _ => false

/-- `a < b` on JS numbers; NaN makes it false. -/
def jsLt : Option Int → Option Int → Bool
  | some a, some b => decide (a < b)
  | _, _ => false

/-- `a > b` on JS numbers; NaN makes it false. -/
def jsGt : Option Int → Option Int → Bool
  | some a, some b => decide (a > b)
  | _, _ => false

/-- Key-presence test `'k' in assertion` on an object's field list. -/
def objFieldsHasKey (fields : List (String × JsValue)) (k : String) : Bool :=
  fields.any (fun p => p.1 == k)

/-- Property read on an object's field list (first occurrence; JSON objects
have no duplicate keys). Missing key is `undefined`. -/
def objGet (fields : List (String × JsValue)) (k : String) : JsValue :=
  match fields.find? (fun p => p.1 == k) with
  | some p => p.2
  | none => .undefined

/-- JS property access `v[k]`, which throws a TypeError on null/undefined.
Numeric-index and `length` access on arrays and strings is included; key
normalisation corners (leading zeros) are outside the modelled fragment. -/
def jsGet : JsValue → String → Except String JsValue
  | .null, k => .error s!"Cannot read properties of null (reading {k})"
  | .undefined, k => .error s!"Cannot read properties of undefined (reading {k})"
  | .obj fields, k => .ok (objGet fields k)
  | .arr xs, k =>
    if k == "length" then .ok (.num (xs.length : Int))
    else
      match digitsToNat k.data with
      | some i =>
        .ok (match xs.get? i with | some v => v | none => .undefined)
      | none => .ok .undefined
  | .str s, k =>
    if k == "length" then .ok (.num (s.length : Int))
    else
      match digitsToNat k.data with
      | some i =>
        .ok (match s.data.get? i with | some c => .str (String.singleton c) | none => .undefined)
      | none => .ok .undefined
  | _, _ => .ok .undefined

/-- Truthiness of an optional JS string: present and non-empty. -/
def jsStrOptTruthy : Option String → Bool
  | some s => s != ""
  | none => false

/-- The external facilities the core calls into: regex compilation
(`new RegExp`) and JSON parsing (`JSON.parse` under try/catch). -/
structure Host where
  compileRegex : String → Option (String → Bool)
  parseJson : String → Option JsValue

/-- The message of the SyntaxError thrown by `new RegExp` on a bad pattern. -/
def regexErrorMsg (pattern : String) : String :=
  s!"Invalid regular expression: {pattern}"

/-- Outcome of one check: pass flag plus explanatory message
(assertions.ts `AssertionResult`). -/
structure AssertionResult where
  passed : Bool
  message : String
  deriving Repr, DecidableEq

/-- assertions.ts `ok`. -/
def ok (message : String) : AssertionResult := ⟨true, message⟩

/-- assertions.ts `fail`. -/
def fail (message : String) : AssertionResult := ⟨false, message⟩

/-- Display of a possibly-NaN JS number in template literals. -/
def numToDisplay : Option Int → String
  | some n => toString n
  | none => "NaN"

/-- assertions.ts `checkArgValue`: the Assertion Engine's side of the Value
Matcher.  Scalar predicates: string = stringified equality, number = numeric
coercion equality, boolean = strict equality.  Object predicates: key chain
equals, contains, not_contains, matches, gte/lte.  `new RegExp` on an invalid
pattern throws, hence `Except`. -/
def checkArgValue (h : Host) (actual expected : JsValue) (path : String) :
    Except String AssertionResult :=
  match expected with
  | .str s =>
    let actualS := jsToString actual
    .ok (if actualS = s then ok s!"{path} = \"{s}\""
         else fail s!"{path}: expected \"{s}\", got \"{actualS}\"")
  | .num n =>
    let actualS := jsToString actual
    .ok (if jsToNumber actual = some n then ok s!"{path} = {n}"
         else fail s!"{path}: expected {n}, got {actualS}")
  | .bool b =>
    let bs := jsToString (.bool b)
    let strictEq : Bool := match actual with | .bool b2 => b2 == b | _ => false
    let actualS := jsToString actual
    .ok (if strictEq then ok s!"{path} = {bs}"
         else fail s!"{path}: expected {bs}, got {actualS}")
  | .obj fields =>
    let actualStr := jsToStringOrEmpty actual
    let actualNum := jsToNumber actual
    if objFieldsHasKey fields "equals" then
      let eqS := jsToString (objGet fields "equals")
      let actualS := jsToString actual
      .ok (if actualS = eqS then ok s!"{path} equals \"{eqS}\""
           else fail s!"{path}: expected equals \"{eqS}\", got \"{actualS}\"")
    else if objFieldsHasKey fields "contains" then
      let needle := jsToString (objGet fields "contains")
      .ok (if strIncludes actualStr needle then ok s!"{path} contains \"{needle}\""
           else fail s!"{path}: expected to contain \"{needle}\", got \"{actualStr}\"")
    else if objFieldsHasKey fields "not_contains" then
      let needle := jsToString (objGet fields "not_contains")
      .ok (if !(strIncludes actualStr needle) then ok s!"{path} does not contain \"{needle}\""
           else fail s!"{path}: expected NOT to contain \"{needle}\", but it does")
    else if objFieldsHasKey fields "matches" then
      let pattern := jsToString (objGet fields "matches")
      match h.compileRegex pattern with
      | none => .error (regexErrorMsg pattern)
      | some re =>
        .ok (if re actualStr then ok s!"{path} matches /{pattern}/"
             else fail s!"{path}: expected to match /{pattern}/, got \"{actualStr}\"")
    else if objFieldsHasKey fields "gte" || objFieldsHasKey fields "lte" then
      let gteResults : List AssertionResult :=
        if objFieldsHasKey fields "gte" then
          let g := jsToNumber (objGet fields "gte")
          let gS := jsToString (objGet fields "gte")
          let aS := numToDisplay actualNum
          [if jsGe actualNum g then ok s!"{path} >= {gS}"
           else fail s!"{path}: expected >= {gS}, got {aS}"]
        else []
      let lteResults : List AssertionResult :=
        if objFieldsHasKey fields "lte" then
          let l := jsToNumber (objGet fields "lte")
          let lS := jsToString (objGet fields "lte")
          let aS := numToDisplay actualNum
          [if jsLe actualNum l then ok s!"{path} <= {lS}"
           else fail s!"{path}: expected <= {lS}, got {aS}"]
        else []
      let results := gteResults ++ lteResults
      .ok (match results.find? (fun r => !r.passed) with
           | some r => r
           | none =>
             match results.head? with
             | some r => r
             | none => ok s!"{path} in range")
    else .ok (fail s!"{path}: unsupported assertion type")
  | _ => .ok (fail s!"{path}: unsupported assertion type")

/-- mocks.ts `matchesArgValue`: the Mock Resolver's side of the Value Matcher.
Absent/null predicate always matches; scalars by stringified equality; object
predicates by key chain equals, contains, matches, not_contains, gte/lte. -/
def matchesArgValue (h : Host) (actual expected : JsValue) : Except String Bool :=
  match expected with
  | .null => .ok true
  | .undefined => .ok true
  | .str s => .ok (jsToString actual == s)
  | .num n => .ok (jsToString actual == jsToString (.num n))
  | .bool b => .ok (jsToString actual == jsToString (.bool b))
  | .obj fields =>
    let actualStr := jsToStringOrEmpty actual
    let actualNum := jsToNumber actual
    if objFieldsHasKey fields "equals" then
      .ok (jsToString actual == jsToString (objGet fields "equals"))
    else if objFieldsHasKey fields "contains" then
      .ok (strIncludes actualStr (jsToString (objGet fields "contains")))
    else if objFieldsHasKey fields "matches" then
      let pattern := jsToString (objGet fields "matches")
      match h.compileRegex pattern with
      | none => .error (regexErrorMsg pattern)
      | some re => .ok (re actualStr)
    else if objFieldsHasKey fields "not_contains" then
      .ok (!(strIncludes actualStr (jsToString (objGet fields "not_contains"))))
    else if objFieldsHasKey fields "gte" || objFieldsHasKey fields "lte" then
      if objFieldsHasKey fields "gte" && jsLt actualNum (jsToNumber (objGet fields "gte")) then
        .ok false
      else if objFieldsHasKey fields "lte" && jsGt actualNum (jsToNumber (objGet fields "lte")) then
        .ok false
      else .ok true
    else .ok false
  | .arr _ => .ok false

/-! ## Assertion Engine data model (types.ts) and step/global evaluation
(assertions.ts). -/

/-- types.ts `ToolCall.function`. -/
structure ToolCallFunction where
  name : String
  arguments : String
  deriving Repr, DecidableEq

/-- types.ts `ToolCall` (the constant `type: 'function'` tag is omitted). -/
structure ToolCall where
  id : String
  function : ToolCallFunction
  deriving Repr, DecidableEq

/-- types.ts `NumericAssertion`; a field is `none` when undefined. -/
structure NumericAssertion where
  gte : Option Int := none
  lte : Option Int := none
  equals : Option Int := none
  deriving Repr, DecidableEq

/-- types.ts `ToolCallAssertion`.  The `args` predicate map keeps declaration
order, as `Object.entries` does; predicate values are raw `JsValue`s. -/
structure ToolCallAssertion where
  name : String
  args : Option (List (String × JsValue)) := none
  count : Option Int := none

/-- A response-assertion field that is `string | string[]` in types.ts. -/
inductive StrOrList where
  | one (s : String)
  | many (l : List String)
  deriving Repr, DecidableEq

/-- types.ts `ResponseAssertion`. -/
structure ResponseAssertion where
  contains : Option StrOrList := none
  contains_any : Option (List String) := none
  not_contains : Option StrOrList := none
  «matches» : Option String := none
  min_length : Option Int := none
  max_length : Option Int := none
  deriving Repr, DecidableEq

/-- types.ts `StepExpectation`. -/
structure StepExpectation where
  tool_calls : Option (List ToolCallAssertion) := none
  tool_calls_not : Option (List ToolCallAssertion) := none
  response : Option ResponseAssertion := none

/-- types.ts `GlobalAssertion`. -/
structure GlobalAssertion where
  tool_order : Option (List String) := none
  total_tool_calls : Option NumericAssertion := none
  total_turns : Option NumericAssertion := none
  total_tokens : Option NumericAssertion := none
  deriving Repr, DecidableEq

/-- assertions.ts `checkNumeric`: one Outcome per declared bound, in the fixed
order gte, lte, equals; no short-circuiting. -/
def checkNumeric (actual : Int) (assertion : NumericAssertion) (label : String) :
    List AssertionResult :=
  let gteResults :=
    match assertion.gte with
    | some g =>
      [if actual ≥ g then ok s!"{label} >= {g} (got {actual})"
       else fail s!"{label}: expected >= {g}, got {actual}"]
    | none => []
  let lteResults :=
    match assertion.lte with
    | some l =>
      [if actual ≤ l then ok s!"{label} <= {l} (got {actual})"
       else fail s!"{label}: expected <= {l}, got {actual}"]
    | none => []
  let eqResults :=
    match assertion.equals with
    | some e =>
      [if actual = e then ok s!"{label} = {e}"
       else fail s!"{label}: expected {e}, got {actual}"]
    | none => []
  gteResults ++ lteResults ++ eqResults

/-- Per-key loop of the declared-args check inside `evaluateToolCallAssertion`:
`checkArgValue(args[key], expectedValue, ...)` for each declared entry. -/
def checkArgEntries (h : Host) (args : JsValue) :
    List (String × JsValue) → Except String (List AssertionResult)
  | [] => .ok []
  | (key, expectedValue) :: rest => do
    let av ← jsGet args key
    let r ← checkArgValue h av expectedValue s!"Args match: {key}"
    let rs ← checkArgEntries h args rest
    .ok (r :: rs)

/-- assertions.ts `evaluateToolCallAssertion`: filter invocations by name,
then name / count / per-key argument outcomes. -/
def evaluateToolCallAssertion (h : Host) (expected : ToolCallAssertion)
    (actualCalls : List ToolCall) : Except String (List AssertionResult) :=
  let matching := actualCalls.filter (fun c => c.function.name == expected.name)
  match matching with
  | [] => .ok [fail s!"Expected tool call: {expected.name} — not called"]
  | call :: _ =>
    let nameResult := ok s!"Called {expected.name}"
    let countResults :=
      match expected.count with
      | some cnt =>
        [if (matching.length : Int) = cnt then ok s!"{expected.name} called {cnt} time(s)"
         else fail s!"{expected.name}: expected {cnt} call(s), got {matching.length}"]
      | none => []
    match expected.args with
    | none => .ok (nameResult :: countResults)
    | some argEntries =>
      match h.parseJson call.function.arguments with
      | none =>
        .ok (nameResult :: countResults ++
             [fail s!"{expected.name}: could not parse arguments as JSON"])
      | some args =>
        match checkArgEntries h args argEntries with
        | .error e => .error e
        | .ok argResults => .ok (nameResult :: countResults ++ argResults)

/-- assertions.ts `evaluateToolCallsNot`: one Outcome per forbidden name. -/
def evaluateToolCallsNot (notExpected : List ToolCallAssertion)
    (actualCalls : List ToolCall) : List AssertionResult :=
  notExpected.map (fun nt =>
    let found := actualCalls.any (fun c => c.function.name == nt.name)
    if found then fail s!"Tool {nt.name} should NOT have been called"
    else ok s!"Tool {nt.name} was not called (correct)")

/-- The needles actually iterated by a `contains` / `not_contains` response
check: guarded by JS truthiness (an empty-string scalar is skipped), then a
scalar becomes a one-element array. -/
def strOrListNeedles : Option StrOrList → List String
  | some (.one s) => if s != "" then [s] else []
  | some (.many l) => l
  | none => []

/-- `actual.slice(0, 100)` plus the `...` marker of the failure messages. -/
def responseSnippet (actual : String) : String :=
  actual.take 100 ++ (if actual.length > 100 then "..." else "")

/-- assertions.ts `evaluateResponseAssertion`: contains / contains_any /
not_contains / matches / min_length / max_length, each independent. -/
def evaluateResponseAssertion (h : Host) (expected : ResponseAssertion)
    (actual : String) : Except String (List AssertionResult) :=
  let containsResults :=
    (strOrListNeedles expected.contains).map (fun needle =>
      if strIncludes actual needle then ok s!"Response contains \"{needle}\""
      else
        let snippet := responseSnippet actual
        fail s!"Response should contain \"{needle}\" — got: \"{snippet}\"")
  let anyResults :=
    match expected.contains_any with
    | none => []
    | some needles =>
      let found := needles.any (fun n => strIncludes actual n)
      let listed := String.intercalate ", " (needles.map (fun n => "\"" ++ n ++ "\""))
      let snippet := responseSnippet actual
      [if found then ok s!"Response contains one of: {listed}"
       else fail s!"Response should contain one of: {listed} — got: \"{snippet}\""]
  let ncResults :=
    (strOrListNeedles expected.not_contains).map (fun needle =>
      if !(strIncludes actual needle) then ok s!"Response does not contain \"{needle}\""
      else fail s!"Response should NOT contain \"{needle}\"")
  let matchesResultsE : Except String (List AssertionResult) :=
    match expected.«matches» with
    | some p =>
      if p != "" then
        match h.compileRegex p with
        | none => .error (regexErrorMsg p)
        | some re =>
          let snippet := actual.take 100
          .ok [if re actual then ok s!"Response matches /{p}/"
               else fail s!"Response should match /{p}/ — got: \"{snippet}\""]
      else .ok []
    | none => .ok []
  let minResults :=
    match expected.min_length with
    | some m =>
      [if (actual.length : Int) ≥ m then ok s!"Response length >= {m}"
       else fail s!"Response too short: {actual.length} < {m}"]
    | none => []
  let maxResults :=
    match expected.max_length with
    | some m =>
      [if (actual.length : Int) ≤ m then ok s!"Response length <= {m}"
       else fail s!"Response too long: {actual.length} > {m}"]
    | none => []
  match matchesResultsE with
  | .error e => .error e
  | .ok matchesResults =>
    .ok (containsResults ++ anyResults ++ ncResults ++ matchesResults ++
         minResults ++ maxResults)

/-- The `for (const tc of expect.tool_calls)` accumulation in
`evaluateStepAssertions`. -/
def evalToolCallList (h : Host) :
    List ToolCallAssertion → List ToolCall → Except String (List AssertionResult)
  | [], _ => .ok []
  | tc :: rest, calls => do
    let rs ← evaluateToolCallAssertion h tc calls
    let more ← evalToolCallList h rest calls
    .ok (rs ++ more)

/-- assertions.ts `evaluateStepAssertions`: tool-call outcomes, forbidden-call
outcomes, then response outcomes; a declared response check with a falsy
(absent or empty) text reply yields the single failing Outcome. -/
def evaluateStepAssertions (h : Host) (expect : Option StepExpectation)
    (toolCalls : List ToolCall) (response : Option String) :
    Except String (List AssertionResult) :=
  match expect with
  | none => .ok []
  | some expect =>
    let tcE :=
      match expect.tool_calls with
      | none => Except.ok ([] : List AssertionResult)
      | some tcs => evalToolCallList h tcs toolCalls
    match tcE with
    | .error e => .error e
    | .ok tcResults =>
      let notResults :=
        match expect.tool_calls_not with
        | none => []
        | some l => evaluateToolCallsNot l toolCalls
      let respE :=
        match expect.response, response with
        | some ra, some r =>
          if r != "" then evaluateResponseAssertion h ra r
          else Except.ok [fail "Expected a text response but got none"]
        | some _, none => Except.ok [fail "Expected a text response but got none"]
        | none, _ => Except.ok ([] : List AssertionResult)
      match respE with
      | .error e => .error e
      | .ok respResults => .ok (tcResults ++ notResults ++ respResults)

/-- JS `Array.prototype.indexOf(x, start)` helper: position counted in the
original list. -/
def idxOfFromAux (x : String) : List String → Nat → Option Nat
  | [], _ => none
  | y :: ys, i => if y == x then some i else idxOfFromAux x ys (i + 1)

/-- `calledNames.indexOf(expected, orderIndex)`; `none` models -1. -/
def idxOfFrom (l : List String) (x : String) (start : Nat) : Option Nat :=
  idxOfFromAux x (l.drop start) start

/-- The failing tool_order message. -/
def toolOrderFailMsg (expected : String) (orderIndex : Nat) : String :=
  s!"Tool order: expected {expected} after position {orderIndex}, not found"

/-- The `for (const expected of assert.tool_order)` scan of
`evaluateGlobalAssertions`: greedy left-to-right subsequence search returning
the pushed results and the `orderOk` flag. -/
def toolOrderLoop (calledNames : List String) :
    List String → Nat → List AssertionResult × Bool
  | [], _ => ([], true)
  | expected :: rest, orderIndex =>
    match idxOfFrom calledNames expected orderIndex with
    | none => ([fail (toolOrderFailMsg expected orderIndex)], false)
    | some foundAt => toolOrderLoop calledNames rest (foundAt + 1)

/-- assertions.ts `evaluateGlobalAssertions`: tool_order scan plus the three
independent numeric totals. -/
def evaluateGlobalAssertions (assert : GlobalAssertion)
    (allToolCalls : List ToolCall) (totalTurns totalTokens : Nat) :
    List AssertionResult :=
  let orderResults :=
    match assert.tool_order with
    | none => []
    | some order =>
      let calledNames := allToolCalls.map (fun c => c.function.name)
      let scanned := toolOrderLoop calledNames order 0
      if scanned.2 then
        scanned.1 ++ [ok ("Tool order: " ++ String.intercalate " → " order)]
      else scanned.1
  let tcResults :=
    match assert.total_tool_calls with
    | none => []
    | some na => checkNumeric (allToolCalls.length : Int) na "Total tool calls"
  let turnResults :=
    match assert.total_turns with
    | none => []
    | some na => checkNumeric (totalTurns : Int) na "Total turns"
  let tokenResults :=
    match assert.total_tokens with
    | none => []
    | some na => checkNumeric (totalTokens : Int) na "Total tokens"
  orderResults ++ tcResults ++ turnResults ++ tokenResults

/-! ## Mock Resolver (mocks.ts) and the `JSON.stringify` model it encodes
payloads with. -/

/-- Minimal JSON string escaping (quote, backslash, common controls). -/
def jsonEscape (s : String) : String :=
  s.data.foldl (fun acc c =>
    if c = '"' then acc ++ "\\\""
    else if c = '\\' then acc ++ "\\\\"
    else if c = '\n' then acc ++ "\\n"
    else if c = '\t' then acc ++ "\\t"
    else if c = '\r' then acc ++ "\\r"
    else acc.push c) ""

mutual

/-- `JSON.stringify` over the modelled values, preserving declared key order.
Inside objects, keys with `undefined` values are dropped, as JS does; a
top-level or array-element `undefined` is collapsed to `null` here (JS returns
the undefined value / writes `null` respectively — the former corner is not
exercised by the resolver on the modelled inputs). -/
def jsonStringify : JsValue → String
  | .null => "null"
  | .undefined => "null"
  | .bool true => "true"
  | .bool false => "false"
  | .num n => toString n
  | .str s => "\"" ++ jsonEscape s ++ "\""
  | .arr xs => "[" ++ jsonStringifyArr xs ++ "]"
  | .obj fields => "\x7b" ++ jsonStringifyObj fields ++ "\x7d"

/-- Array elements, comma separated. -/
def jsonStringifyArr : List JsValue → String
  | [] => ""
  | [x] => jsonStringify x
  | x :: xs => jsonStringify x ++ "," ++ jsonStringifyArr xs

/-- Object entries, comma separated, `undefined` values dropped. -/
def jsonStringifyObj : List (String × JsValue) → String
  | [] => ""
  | (k, v) :: rest =>
    let restS := jsonStringifyObj rest
    match v with
    | .undefined => restS
    | _ =>
      let entry := "\"" ++ jsonEscape k ++ "\":" ++ jsonStringify v
      if restS = "" then entry else entry ++ "," ++ restS

end

/-- types.ts `MockCondition`; `ret` is its `return` value (`return` is a Lean
keyword). -/
structure MockCondition where
  when : List (String × JsValue)
  ret : JsValue

/-- The object held by a `MockDefinition.default` field: `{ return: v }`. -/
structure MockDefault where
  ret : JsValue

/-- types.ts `MockDefinition`.  `ret = some v` means the object carries a
`return` key with value `v` (the `'return' in mock` presence test); `dflt`
is the optional `default` field. -/
structure MockDefinition where
  ret : Option JsValue := none
  error : Option String := none
  conditions : Option (List MockCondition) := none
  dflt : Option MockDefault := none

/-- One value of a `StepMock` table: either an object recognised as a
`MockDefinition` by the `'return' | 'error' | 'conditions'` key test in
`resolveMocks`, or any other raw value returned verbatim. -/
inductive MockEntry where
  | defn (d : MockDefinition)
  | raw (v : JsValue)

/-- types.ts `StepMock`: tool name → mock entry, in declaration order. -/
def StepMock := List (String × MockEntry)

/-- mocks.ts `argsMatchCondition`: every key of the predicate-map must pass
the Value Matcher against the tool call's argument at that key. -/
def argsMatchCondition (h : Host) (toolCallArgs : JsValue) :
    List (String × JsValue) → Except String Bool
  | [] => .ok true
  | (key, expected) :: rest => do
    let av ← jsGet toolCallArgs key
    let m ← matchesArgValue h av expected
    if m then argsMatchCondition h toolCallArgs rest else .ok false

/-- The `for (const condition of mock.conditions)` scan: the `return` of the
first condition whose predicate-map fully matches, `none` when none match. -/
def firstMatchingCondition (h : Host) (args : JsValue) :
    List MockCondition → Except String (Option JsValue)
  | [] => .ok none
  | c :: rest => do
    let m ← argsMatchCondition h args c.when
    if m then .ok (some c.ret) else firstMatchingCondition h args rest

/-- mocks.ts `resolveMockDefinition`: error rule, then conditional rule with
first-match-wins / declared default / diagnostic payload, then simple
return. -/
def resolveMockDefinition (h : Host) (mock : MockDefinition) (args : JsValue) :
    Except String JsValue :=
  if jsStrOptTruthy mock.error then
    .ok (.obj [("error", .str (mock.error.getD ""))])
  else if (mock.conditions.getD []).length > 0 then
    match firstMatchingCondition h args (mock.conditions.getD []) with
    | .error e => .error e
    | .ok (some v) => .ok v
    | .ok none =>
      match mock.dflt with
      | some d => .ok d.ret
      | none =>
        .ok (.obj [("error",
          .str ("No matching mock condition for args: " ++ jsonStringify args))])
  else
    match mock.ret with
    | some v => .ok v
    | none => .ok .null

/-- Key lookup in a step's mock table (`toolName in stepMock`). -/
def stepMockLookup (sm : StepMock) (toolName : String) : Option MockEntry :=
  (sm.find? (fun p => p.1 == toolName)).map (·.2)

/-- The per-invocation body of the `resolveMocks` loop after argument
parsing: pick the tool's entry (or the unmocked-tool fallback), resolve it,
and encode the payload (strings pass through, anything else is stringified). -/
def mockContentFor (h : Host) (stepMock : Option StepMock) (toolName : String)
    (args : JsValue) : Except String String := do
  let response ←
    match stepMock with
    | some sm =>
      match stepMockLookup sm toolName with
      | some (.defn d) => resolveMockDefinition h d args
      | some (.raw v) => Except.ok v
      | none => Except.ok (.obj [("result", .str ("Mock not defined for tool: " ++ toolName))])
    | none => Except.ok (.obj [("result", .str ("Mock not defined for tool: " ++ toolName))])
  match response with
  | .str s => .ok s
  | v => .ok (jsonStringify v)

/-- JS `Map.set`: replace in place when the key exists, append otherwise. -/
def mapSet (m : List (String × String)) (k v : String) : List (String × String) :=
  if m.any (fun p => p.1 == k) then
    m.map (fun p => if p.1 == k then (k, v) else p)
  else m ++ [(k, v)]

/-- JS `Map.get`. -/
def mapGet (m : List (String × String)) (k : String) : Option String :=
  (m.find? (fun p => p.1 == k)).map (·.2)

/-- The `for (const call of toolCalls)` loop of `resolveMocks`: parse the
invocation's argument text (falling back to an empty argument set on parse
failure), compute the payload, record it under the invocation id. -/
def resolveMocksLoop (h : Host) (stepMock : Option StepMock) :
    List ToolCall → List (String × String) → Except String (List (String × String))
  | [], results => .ok results
  | call :: rest, results => do
    let args := (h.parseJson call.function.arguments).getD (.obj [])
    let content ← mockContentFor h stepMock call.function.name args
    resolveMocksLoop h stepMock rest (mapSet results call.id content)

/-- mocks.ts `resolveMocks`: map of invocation id → encoded payload. -/
def resolveMocks (h : Host) (toolCalls : List ToolCall)
    (stepMock : Option StepMock) : Except String (List (String × String)) :=
  resolveMocksLoop h stepMock toolCalls []

/-! ## Conversation Executor (executor.ts).

The model boundary (`callLLM`: provider URL/model/key selection, HTTP POST,
timeout, non-2xx handling) and the instruction-resolution boundary
(`fetchPrompt`, promptman.ts) are external collaborators; they appear as the
function fields of `ExecCtx`, each returning `Except String` (an `.error` is a
thrown fault).  Progress notifications (`emit`) carry no state and are
dropped; wall-clock duration and dollar-cost estimation (floating point) are
likewise outside the modelled fragment, so `TestResult` omits `durationMs`,
`estimatedCost` and `file`. -/

/-- types.ts `ChatMessage.role`. -/
inductive Role where
  | system | user | assistant | tool
  deriving Repr, DecidableEq

/-- types.ts `ChatMessage`; `content` is `none` for JS null/absent. -/
structure ChatMessage where
  role : Role
  content : Option String
  tool_calls : Option (List ToolCall) := none
  tool_call_id : Option String := none
  deriving Repr, DecidableEq

/-- types.ts `ChatCompletionResponse.usage`. -/
structure Usage where
  prompt_tokens : Nat
  completion_tokens : Nat
  total_tokens : Nat
  deriving Repr, DecidableEq

/-- One element of `choices` (the unused `index`/`finish_reason` fields are
omitted). -/
structure Choice where
  message : ChatMessage
  deriving Repr, DecidableEq

/-- types.ts `ChatCompletionResponse` (unused `id` omitted). -/
structure ChatCompletionResponse where
  choices : List Choice
  usage : Option Usage := none
  deriving Repr, DecidableEq

/-- types.ts `ToolDefinition`; the JSON-schema `parameters` payload is opaque
to the executor and carried as a `JsValue`. -/
structure ToolDefinition where
  name : String
  description : String := ""
  parameters : JsValue := .obj []

/-- types.ts `PromptmanSource`. -/
structure PromptmanSource where
  slug : String
  stage : Option String := none
  «variables» : List (String × String) := []

/-- types.ts `SystemPromptSource`: literal text or a promptman reference. -/
inductive SystemPromptSource where
  | inline (s : String)
  | promptman (p : PromptmanSource)

/-- types.ts `TestStep`. -/
structure TestStep where
  user : Option String := none
  expect : Option StepExpectation := none
  mock : Option StepMock := none
  assert : Option GlobalAssertion := none

/-- types.ts `TestDefinition` (per-test `provider` overrides are absorbed by
the boundary function of `ExecCtx`). -/
structure TestDefinition where
  name : String
  system_prompt : SystemPromptSource
  tools : Option (List ToolDefinition) := none
  steps : List TestStep

/-- types.ts `PromptmanConfig` (the executor only tests its presence). -/
structure PromptmanConfig where
  base_url : String := ""
  api_key : Option String := none

/-- types.ts `Settings`; `timeout` is enforced inside the boundary functions
and therefore not read by the model. -/
structure Settings where
  timeout : Nat := 30000
  max_turns : Nat := 10

/-- types.ts `Config` (provider selection absorbed by the boundary). -/
structure Config where
  promptman : Option PromptmanConfig := none
  settings : Settings

/-- The external boundaries one executor run talks to. -/
structure ExecCtx where
  host : Host
  llm : List ChatMessage → List ToolDefinition → Except String ChatCompletionResponse
  fetchPrompt : PromptmanSource → PromptmanConfig → Except String String

/-- utils.ts `estimateTokens`: 0 for empty text, otherwise ⌈length / 4⌉. -/
def estimateTokens (text : String) : Nat :=
  if text = "" then 0 else (text.length + 3) / 4

/-- `messages.map(m => m.content ?? '').join(' ')`. -/
def messagesText (messages : List ChatMessage) : String :=
  String.intercalate " " (messages.map (fun m => m.content.getD ""))

/-- A tool call as the JSON value `JSON.stringify` sees. -/
def toolCallToJsValue (tc : ToolCall) : JsValue :=
  .obj [("id", .str tc.id), ("type", .str "function"),
        ("function", .obj [("name", .str tc.function.name),
                           ("arguments", .str tc.function.arguments)])]

/-- `JSON.stringify(msg.tool_calls)`. -/
def toolCallsJson (tcs : List ToolCall) : String :=
  jsonStringify (.arr (tcs.map toolCallToJsValue))

/-- executor.ts `resolveSystemPrompt`: literal text passes through; a
promptman reference needs promptman config and goes to the boundary. -/
def resolveSystemPrompt (ctx : ExecCtx) (source : SystemPromptSource)
    (config : Config) : Except String String :=
  match source with
  | .inline s => .ok s
  | .promptman p =>
    match config.promptman with
    | none => .error "Promptman config required to fetch remote prompts. Set PROMPTMAN_API_KEY."
    | some pc => ctx.fetchPrompt p pc

/-- The local state of one step's inner multi-turn loop, plus the whole-test
accumulators it updates (`messages`, `allToolCalls`, token and turn
counters). -/
structure StepState where
  messages : List ChatMessage
  stepToolCalls : List ToolCall
  allToolCalls : List ToolCall
  assistantResponse : Option String
  totalInputTokens : Nat
  totalOutputTokens : Nat
  totalTurns : Nat
  turnCount : Nat

/-- The inner `while (turnCount < config.settings.max_turns)` loop of
`executeTest`.  `fuel` is the number of remaining permitted iterations
(`max_turns - turnCount`, initially `max_turns`); reaching 0 is the loop
guard turning false, which exits silently.  Each iteration calls the model
boundary once; tool calls are appended, mocks resolved and injected, and the
loop continues; a (truthy) text reply is recorded and breaks; a reply with
neither breaks with nothing recorded.  A throw (`.error`) carries the
`StepState` as mutated up to the throw point — the whole-test locals are
function-scope in JS, so the `catch` of `executeTest` observes exactly these
partially updated counters and histories. -/
def stepLoop (ctx : ExecCtx) (cfg : Config) (tools : List ToolDefinition)
    (mock : Option StepMock) : Nat → StepState → Except (String × StepState) StepState
  | 0, st => .ok st
  | fuel + 1, st =>
    let st := { st with totalTurns := st.totalTurns + 1, turnCount := st.turnCount + 1 }
    match ctx.llm st.messages tools with
    | .error e => .error (e, st)
    | .ok completion =>
      let st :=
        match completion.usage with
        | some u =>
          { st with totalInputTokens := st.totalInputTokens + u.prompt_tokens,
                    totalOutputTokens := st.totalOutputTokens + u.completion_tokens }
        | none =>
          { st with totalInputTokens :=
              st.totalInputTokens + estimateTokens (messagesText st.messages) }
      match completion.choices.head? with
      | none => .error ("No response from LLM", st)
      | some choice =>
        let msg := choice.message
        let tcs := msg.tool_calls.getD []
        if tcs.length > 0 then
          let st := { st with
            messages := st.messages ++
              [({ role := .assistant, content := msg.content, tool_calls := some tcs } : ChatMessage)],
            stepToolCalls := st.stepToolCalls ++ tcs,
            allToolCalls := st.allToolCalls ++ tcs }
          let st :=
            if completion.usage.isSome then
              { st with totalOutputTokens :=
                  st.totalOutputTokens + estimateTokens (toolCallsJson tcs) }
            else st
          match resolveMocks ctx.host tcs mock with
          | .error e => .error (e, st)
          | .ok mockResults =>
            let st := { st with messages := st.messages ++ tcs.map (fun tc =>
              ({ role := .tool,
                 content := some ((mapGet mockResults tc.id).getD
                   (jsonStringify (.obj [("result", .str "ok")]))),
                 tool_call_id := some tc.id } : ChatMessage)) }
            stepLoop ctx cfg tools mock fuel st
        else
          let st :=
            if jsStrOptTruthy msg.content then
              { st with
                assistantResponse := msg.content,
                messages := st.messages ++ [({ role := .assistant, content := msg.content } : ChatMessage)],
                totalOutputTokens := st.totalOutputTokens +
                  (if completion.usage.isSome then 0 else estimateTokens (msg.content.getD "")) }
            else st
          .ok st

/-- types.ts `StepResult`. -/
structure StepResult where
  stepIndex : Nat
  userMessage : Option String
  assertions : List AssertionResult
  toolCalls : List ToolCall
  assistantResponse : Option String
  passed : Bool

/-- The whole-test running state threaded through the step loop of
`executeTest`. -/
structure Accum where
  messages : List ChatMessage
  allToolCalls : List ToolCall := []
  stepResults : List StepResult := []
  totalInputTokens : Nat := 0
  totalOutputTokens : Nat := 0
  totalTurns : Nat := 0

/-- A deferred whole-test assertion step:
`step.assert && !step.user && !step.expect`. -/
def isDeferredStep (step : TestStep) : Bool :=
  step.assert.isSome && !(jsStrOptTruthy step.user) && step.expect.isNone

/-- The whole-test locals as the `catch` of `executeTest` observes them when
a throw happens with step-local state `st`: the counters and histories are
the mutated function-scope locals, while `stepResults` holds only the steps
completed before the faulting one (nothing is pushed for it). -/
def faultAccum (st : StepState) (stepResults : List StepResult) : Accum :=
  { messages := st.messages, allToolCalls := st.allToolCalls,
    stepResults := stepResults, totalInputTokens := st.totalInputTokens,
    totalOutputTokens := st.totalOutputTokens, totalTurns := st.totalTurns }

/-- One non-deferred step of `executeTest`: push the user utterance when
truthy, run the inner loop, evaluate step assertions, append the
`StepResult`.  A throw from the loop or from assertion evaluation carries the
whole-test locals as mutated at the throw point (`faultAccum`). -/
def runStep (ctx : ExecCtx) (cfg : Config) (tools : List ToolDefinition)
    (step : TestStep) (stepIdx : Nat) (acc : Accum) : Except (String × Accum) Accum :=
  let messages :=
    if jsStrOptTruthy step.user then acc.messages ++ [({ role := .user, content := step.user } : ChatMessage)]
    else acc.messages
  let st0 : StepState := {
    messages := messages, stepToolCalls := [], allToolCalls := acc.allToolCalls,
    assistantResponse := none,
    totalInputTokens := acc.totalInputTokens, totalOutputTokens := acc.totalOutputTokens,
    totalTurns := acc.totalTurns, turnCount := 0 }
  match stepLoop ctx cfg tools step.mock cfg.settings.max_turns st0 with
  | .error (m, stE) => .error (m, faultAccum stE acc.stepResults)
  | .ok stF =>
    match evaluateStepAssertions ctx.host step.expect stF.stepToolCalls
        stF.assistantResponse with
    | .error m => .error (m, faultAccum stF acc.stepResults)
    | .ok assertions =>
      let stepResult : StepResult := {
        stepIndex := stepIdx, userMessage := step.user, assertions := assertions,
        toolCalls := stF.stepToolCalls, assistantResponse := stF.assistantResponse,
        passed := assertions.all (fun a => a.passed) }
      .ok { messages := stF.messages, allToolCalls := stF.allToolCalls,
            stepResults := acc.stepResults ++ [stepResult],
            totalInputTokens := stF.totalInputTokens,
            totalOutputTokens := stF.totalOutputTokens,
            totalTurns := stF.totalTurns }

/-- Result of iterating the steps: completion, or a fault carrying the state
the JS `catch` observes — the function-scope locals as mutated up to the
throw, including completed turns of the faulting step. -/
inductive StepsOutcome where
  | done (acc : Accum)
  | fault (msg : String) (acc : Accum)

/-- The `for (stepIdx …)` loop of `executeTest`: deferred whole-test
assertion steps are skipped; a fault aborts the remaining steps, carrying
the mutated locals of the faulting step and the step results computed before
it. -/
def stepsLoop (ctx : ExecCtx) (cfg : Config) (tools : List ToolDefinition) :
    List TestStep → Nat → Accum → StepsOutcome
  | [], _, acc => .done acc
  | step :: rest, stepIdx, acc =>
    if isDeferredStep step then stepsLoop ctx cfg tools rest (stepIdx + 1) acc
    else
      match runStep ctx cfg tools step stepIdx acc with
      | .ok acc2 => stepsLoop ctx cfg tools rest (stepIdx + 1) acc2
      | .error (m, accE) => .fault m accE

/-- The second loop of `executeTest`: evaluate `step.assert` of every step
that declares one, over the accumulated whole-test state. -/
def collectGlobalAssertions (steps : List TestStep) (allToolCalls : List ToolCall)
    (totalTurns totalTokens : Nat) : List AssertionResult :=
  steps.foldl (fun rs step =>
    match step.assert with
    | some a => rs ++ evaluateGlobalAssertions a allToolCalls totalTurns totalTokens
    | none => rs) []

/-- types.ts `TestResult` (duration, cost and file path omitted, see above). -/
structure TestResult where
  name : String
  passed : Bool
  steps : List StepResult
  globalAssertions : List AssertionResult
  totalTokens : Nat
  error : Option String := none

/-- executor.ts `executeTest`: resolve the system prompt, drive every
non-deferred step through the inner loop, then evaluate deferred whole-test
assertions; any fault aborts the remainder, preserving completed step
results and recording the fault message on a failed `TestResult`. -/
def executeTest (ctx : ExecCtx) (test : TestDefinition) (cfg : Config) : TestResult :=
  match resolveSystemPrompt ctx test.system_prompt cfg with
  | .error m =>
    { name := test.name, passed := false, steps := [], globalAssertions := [],
      totalTokens := 0, error := some m }
  | .ok systemPrompt =>
    let acc0 : Accum := { messages := [({ role := .system, content := some systemPrompt } : ChatMessage)] }
    match stepsLoop ctx cfg (test.tools.getD []) test.steps 0 acc0 with
    | .fault m acc =>
      { name := test.name, passed := false, steps := acc.stepResults,
        globalAssertions := [],
        totalTokens := acc.totalInputTokens + acc.totalOutputTokens, error := some m }
    | .done acc =>
      let globals := collectGlobalAssertions test.steps acc.allToolCalls acc.totalTurns
        (acc.totalInputTokens + acc.totalOutputTokens)
      { name := test.name,
        passed := acc.stepResults.all (fun s => s.passed) && globals.all (fun a => a.passed),
        steps := acc.stepResults, globalAssertions := globals,
        totalTokens := acc.totalInputTokens + acc.totalOutputTokens, error := none }

/-! ## Shared lemmas and sample instantiations. -/

/-- A concrete host for instantiations: patterns compile to literal substring
tests (the behaviour of real regexes without metacharacters), the single
pattern `(` is invalid (in JS `new RegExp("(")` throws a SyntaxError), and
only the literal two-character empty-object text parses as JSON. -/
def sampleHost : Host := {
  compileRegex := fun p => if p = "(" then none else some (fun s => strIncludes s p),
  parseJson := fun s => if s = "\x7b\x7d" then some (.obj []) else none }

@[simp] theorem objFieldsHasKey_nil (k : String) : objFieldsHasKey [] k = false := rfl

@[simp] theorem objFieldsHasKey_cons (k1 : String) (v1 : JsValue)
    (rest : List (String × JsValue)) (k : String) :
    objFieldsHasKey ((k1, v1) :: rest) k = (k1 == k || objFieldsHasKey rest k) := by
  simp [objFieldsHasKey]

@[simp] theorem objGet_nil (k : String) : objGet [] k = .undefined := rfl

@[simp] theorem objGet_cons (k1 : String) (v1 : JsValue)
    (rest : List (String × JsValue)) (k : String) :
    objGet ((k1, v1) :: rest) k = if k1 == k then v1 else objGet rest k := by
  by_cases hk : k1 == k <;> simp [objGet, List.find?_cons, hk]

theorem passed_ite (c : Prop) [Decidable c] (m1 m2 : String) :
    (if c then ok m1 else fail m2).passed = decide c := by
  by_cases hc : c <;> simp [hc, ok, fail]

/-- The single-category reduction of a structured predicate under
`checkArgValue`'s key-test order: equals, contains, not_contains, matches,
gte/lte (both range bounds are kept).  `none` when no recognised key is
present. -/
def cavPrimaryFields (fields : List (String × JsValue)) : Option (List (String × JsValue)) :=
  if objFieldsHasKey fields "equals" then some [("equals", objGet fields "equals")]
  else if objFieldsHasKey fields "contains" then some [("contains", objGet fields "contains")]
  else if objFieldsHasKey fields "not_contains" then
    some [("not_contains", objGet fields "not_contains")]
  else if objFieldsHasKey fields "matches" then some [("matches", objGet fields "matches")]
  else if objFieldsHasKey fields "gte" || objFieldsHasKey fields "lte" then
    some ((if objFieldsHasKey fields "gte" then [("gte", objGet fields "gte")] else []) ++
          (if objFieldsHasKey fields "lte" then [("lte", objGet fields "lte")] else []))
  else none

/-- The single-category reduction under `matchesArgValue`'s key-test order:
equals, contains, matches, not_contains, gte/lte. -/
def mmPrimaryFields (fields : List (String × JsValue)) : Option (List (String × JsValue)) :=
  if objFieldsHasKey fields "equals" then some [("equals", objGet fields "equals")]
  else if objFieldsHasKey fields "contains" then some [("contains", objGet fields "contains")]
  else if objFieldsHasKey fields "matches" then some [("matches", objGet fields "matches")]
  else if objFieldsHasKey fields "not_contains" then
    some [("not_contains", objGet fields "not_contains")]
  else if objFieldsHasKey fields "gte" || objFieldsHasKey fields "lte" then
    some ((if objFieldsHasKey fields "gte" then [("gte", objGet fields "gte")] else []) ++
          (if objFieldsHasKey fields "lte" then [("lte", objGet fields "lte")] else []))
  else none

/-- `checkArgValue` on a structured predicate only looks at its
highest-precedence category (in `checkArgValue`'s own order). -/
theorem cav_primary (h : Host) (actual : JsValue) (fields : List (String × JsValue))
    (p : String) :
    checkArgValue h actual (.obj fields) p =
      checkArgValue h actual (.obj ((cavPrimaryFields fields).getD fields)) p := by
  cases hE : objFieldsHasKey fields "equals"
  case true => simp [checkArgValue, cavPrimaryFields, hE]
  case false =>
  cases hC : objFieldsHasKey fields "contains"
  case true => simp [checkArgValue, cavPrimaryFields, hE, hC]
  case false =>
  cases hN : objFieldsHasKey fields "not_contains"
  case true => simp [checkArgValue, cavPrimaryFields, hE, hC, hN]
  case false =>
  cases hM : objFieldsHasKey fields "matches"
  case true => simp [checkArgValue, cavPrimaryFields, hE, hC, hN, hM]
  case false =>
  cases hG : objFieldsHasKey fields "gte" <;> cases hL : objFieldsHasKey fields "lte" <;>
    simp [checkArgValue, cavPrimaryFields, hE, hC, hN, hM, hG, hL]

/-- `matchesArgValue` on a structured predicate only looks at its
highest-precedence category (in `matchesArgValue`'s own order). -/
theorem mm_primary (h : Host) (actual : JsValue) (fields : List (String × JsValue)) :
    matchesArgValue h actual (.obj fields) =
      matchesArgValue h actual (.obj ((mmPrimaryFields fields).getD fields)) := by
  cases hE : objFieldsHasKey fields "equals"
  case true => simp [matchesArgValue, mmPrimaryFields, hE]
  case false =>
  cases hC : objFieldsHasKey fields "contains"
  case true => simp [matchesArgValue, mmPrimaryFields, hE, hC]
  case false =>
  cases hM : objFieldsHasKey fields "matches"
  case true => simp [matchesArgValue, mmPrimaryFields, hE, hC, hM]
  case false =>
  cases hN : objFieldsHasKey fields "not_contains"
  case true => simp [matchesArgValue, mmPrimaryFields, hE, hC, hM, hN]
  case false =>
  cases hG : objFieldsHasKey fields "gte" <;> cases hL : objFieldsHasKey fields "lte" <;>
    simp [matchesArgValue, mmPrimaryFields, hE, hC, hM, hN, hG, hL]

/-- `checkArgValue` conjoins both Range bounds when both are given. -/
theorem cav_range_conj (h : Host) (actual g l : JsValue) (p : String) :
    (checkArgValue h actual (.obj [("gte", g), ("lte", l)]) p).map (fun r => r.passed) =
      .ok (jsGe (jsToNumber actual) (jsToNumber g) &&
           jsLe (jsToNumber actual) (jsToNumber l)) := by
  cases hge : jsGe (jsToNumber actual) (jsToNumber g) <;>
    cases hle : jsLe (jsToNumber actual) (jsToNumber l) <;>
      simp [checkArgValue, hge, hle, ok, fail, Except.map]

/-- `matchesArgValue` conjoins both Range bounds when both are given (each
bound tested in its negated JS form). -/
theorem mm_range_conj (h : Host) (actual g l : JsValue) :
    matchesArgValue h actual (.obj [("gte", g), ("lte", l)]) =
      .ok (!(jsLt (jsToNumber actual) (jsToNumber g)) &&
           !(jsGt (jsToNumber actual) (jsToNumber l))) := by
  cases hlt : jsLt (jsToNumber actual) (jsToNumber g) <;>
    cases hgt : jsGt (jsToNumber actual) (jsToNumber l) <;>
      simp [matchesArgValue, hlt, hgt]

/-! ## Claims. -/

/-- C1, counterexample: on actual value `"abc"` and the structured predicate
`{not_contains: "abc", matches: "abc"}`, `matchesArgValue` returns a match,
whereas its highest-precedence category under the claimed order
(NotContains) alone returns a non-match — so the Mock Resolver's evaluator
does not decide by the claimed Equals, Contains, NotContains, Matches, Range
precedence. -/
theorem C1_counterexample :
    matchesArgValue sampleHost (JsValue.str "abc")
        (JsValue.obj [("not_contains", .str "abc"), ("matches", .str "abc")]) = .ok true
    ∧ matchesArgValue sampleHost (JsValue.str "abc")
        (JsValue.obj [("not_contains", .str "abc")]) = .ok false := by
  constructor <;> rfl

/-- C1, amended: `checkArgValue` decides structured predicates by
single-category precedence Equals, Contains, NotContains, Matches, Range,
while `matchesArgValue` decides by Equals, Contains, Matches, NotContains,
Range (Matches and NotContains swapped); in each evaluator a multi-category
predicate's outcome equals the outcome of its own highest-precedence category
alone, and Range's gte/lte bounds are conjoined when both are given. -/
theorem C1_precedence :
    (∀ (h : Host) (actual : JsValue) (fields : List (String × JsValue)) (p : String),
      checkArgValue h actual (.obj fields) p =
        checkArgValue h actual (.obj ((cavPrimaryFields fields).getD fields)) p)
    ∧ (∀ (h : Host) (actual : JsValue) (fields : List (String × JsValue)),
      matchesArgValue h actual (.obj fields) =
        matchesArgValue h actual (.obj ((mmPrimaryFields fields).getD fields)))
    ∧ (∀ (h : Host) (actual g l : JsValue) (p : String),
      (checkArgValue h actual (.obj [("gte", g), ("lte", l)]) p).map (fun r => r.passed) =
        .ok (jsGe (jsToNumber actual) (jsToNumber g) &&
             jsLe (jsToNumber actual) (jsToNumber l)))
    ∧ (∀ (h : Host) (actual g l : JsValue),
      matchesArgValue h actual (.obj [("gte", g), ("lte", l)]) =
        .ok (!(jsLt (jsToNumber actual) (jsToNumber g)) &&
             !(jsGt (jsToNumber actual) (jsToNumber l)))) :=
  ⟨cav_primary, mm_primary, cav_range_conj, mm_range_conj⟩

/-- Both sides of a Range comparison coerce to numbers: the actual value, and
every bound the predicate declares. -/
def rangeNumeric (actual : JsValue) (fields : List (String × JsValue)) : Prop :=
  (jsToNumber actual).isSome = true
  ∧ (objFieldsHasKey fields "gte" = true → (jsToNumber (objGet fields "gte")).isSome = true)
  ∧ (objFieldsHasKey fields "lte" = true → (jsToNumber (objGet fields "lte")).isSome = true)

/-- The domain on which the two Value-Matcher implementations agree: scalar
string predicates, array predicates, and structured predicates that neither
carry the swapped-precedence pair (not_contains and matches without a
higher-precedence key) nor are Range predicates with a non-numeric side. -/
def valueMatcherAgreeDomain (actual pred : JsValue) : Prop :=
  match pred with
  | .str _ => True
  | .arr _ => True
  | .obj fields =>
    (¬(objFieldsHasKey fields "equals" = false ∧ objFieldsHasKey fields "contains" = false ∧
       objFieldsHasKey fields "not_contains" = true ∧ objFieldsHasKey fields "matches" = true))
    ∧ (objFieldsHasKey fields "equals" = false → objFieldsHasKey fields "contains" = false →
       objFieldsHasKey fields "not_contains" = false → objFieldsHasKey fields "matches" = false →
       (objFieldsHasKey fields "gte" = true ∨ objFieldsHasKey fields "lte" = true) →
       rangeNumeric actual fields)
  | _ => False

/-- C9, amended: `checkArgValue` produces a passing Outcome iff
`matchesArgValue` returns a match, for every predicate in
`valueMatcherAgreeDomain`: scalar string predicates and structured (object or
array) predicates, excluding predicates carrying both matches and
not_contains without an equals/contains key, and Range predicates whose
actual value or declared bounds do not coerce to numbers.  (Null, boolean and
number scalar predicates genuinely differ between the two evaluators.) -/
theorem value_matcher_agreement (h : Host) (actual pred : JsValue) (p : String)
    (hdom : valueMatcherAgreeDomain actual pred) :
    (checkArgValue h actual pred p).map (fun r => r.passed) = matchesArgValue h actual pred := by
  cases pred with
  | null => exact absurd hdom (by simp [valueMatcherAgreeDomain])
  | undefined => exact absurd hdom (by simp [valueMatcherAgreeDomain])
  | bool b => exact absurd hdom (by simp [valueMatcherAgreeDomain])
  | num n => exact absurd hdom (by simp [valueMatcherAgreeDomain])
  | str s =>
    simp only [checkArgValue, matchesArgValue, Except.map]
    split <;> rename_i hc <;> simp_all [ok, fail]
  | arr xs =>
    simp [checkArgValue, matchesArgValue, Except.map, fail]
  | obj fields =>
    obtain ⟨hnm, hrange⟩ := hdom
    cases hE : objFieldsHasKey fields "equals"
    case true =>
      simp only [checkArgValue, matchesArgValue, hE, if_true, Except.map]
      split <;> rename_i hc <;> simp_all [ok, fail]
    case false =>
    cases hC : objFieldsHasKey fields "contains"
    case true =>
      simp only [checkArgValue, matchesArgValue, hE, hC, Bool.false_eq_true, if_false,
        if_true, Except.map]
      split <;> rename_i hc <;> simp_all [ok, fail]
    case false =>
    cases hN : objFieldsHasKey fields "not_contains"
    case true =>
      cases hM : objFieldsHasKey fields "matches"
      case true => exact absurd ⟨hE, hC, hN, hM⟩ hnm
      case false =>
        simp only [checkArgValue, matchesArgValue, hE, hC, hN, hM, Bool.false_eq_true,
          if_false, if_true, Except.map]
        split <;> rename_i hc <;> simp_all [ok, fail]
    case false =>
    cases hM : objFieldsHasKey fields "matches"
    case true =>
      simp only [checkArgValue, matchesArgValue, hE, hC, hN, hM, Bool.false_eq_true,
        if_false, if_true, Except.map]
      cases hcr : h.compileRegex (jsToString (objGet fields "matches"))
      case none => simp
      case some re =>
        simp only []
        split <;> rename_i hc <;> simp_all [ok, fail]
    case false =>
    cases hG : objFieldsHasKey fields "gte"
    case true =>
      obtain ⟨ha, hg, hl⟩ := hrange hE hC hN hM (Or.inl hG)
      obtain ⟨a, ha⟩ := Option.isSome_iff_exists.mp ha
      obtain ⟨g, hg⟩ := Option.isSome_iff_exists.mp (hg hG)
      cases hL : objFieldsHasKey fields "lte"
      case true =>
        obtain ⟨l, hl⟩ := Option.isSome_iff_exists.mp (hl hL)
        simp only [checkArgValue, matchesArgValue, hE, hC, hN, hM, hG, hL,
          Bool.false_eq_true, if_false, if_true, Bool.true_or, Bool.or_true, Except.map,
          ha, hg, hl, jsGe, jsLe, jsLt, jsGt, Bool.true_and]
        by_cases h1 : a < g
        · simp [h1, not_le.mpr h1, ok, fail]
        · by_cases h2 : l < a
          · simp [h1, h2, not_lt.mp h1, not_le.mpr h2, ok, fail]
          · simp [h1, h2, not_lt.mp h1, not_lt.mp h2, ok, fail]
      case false =>
        simp only [checkArgValue, matchesArgValue, hE, hC, hN, hM, hG, hL,
          Bool.false_eq_true, if_false, if_true, Bool.true_or, Bool.or_false, Except.map,
          ha, hg, jsGe, jsLt, Bool.true_and, Bool.false_and]
        by_cases h1 : a < g
        · simp [h1, not_le.mpr h1, ok, fail]
        · simp [h1, not_lt.mp h1, ok, fail]
    case false =>
    cases hL : objFieldsHasKey fields "lte"
    case true =>
      obtain ⟨ha, hg, hl⟩ := hrange hE hC hN hM (Or.inr hL)
      obtain ⟨a, ha⟩ := Option.isSome_iff_exists.mp ha
      obtain ⟨l, hl⟩ := Option.isSome_iff_exists.mp (hl hL)
      simp only [checkArgValue, matchesArgValue, hE, hC, hN, hM, hG, hL,
        Bool.false_eq_true, if_false, if_true, Bool.false_or, Bool.or_true, Except.map,
        ha, hl, jsLe, jsGt, Bool.true_and, Bool.false_and]
      by_cases h2 : l < a
      · simp [h2, not_le.mpr h2, ok, fail]
      · simp [h2, not_lt.mp h2, ok, fail]
    case false =>
      simp [checkArgValue, matchesArgValue, hE, hC, hN, hM, hG, hL, Except.map, fail]

/-- C7, counterexample: for the boolean predicate `true` and the actual
string value `"true"`, the string forms coincide, yet `checkArgValue` fails —
its boolean branch uses strict equality, not the claimed stringified
equality. -/
theorem C7_counterexample :
    (checkArgValue sampleHost (JsValue.str "true") (JsValue.bool true) "args.flag").map
      (fun r => r.passed) = Except.ok false
    ∧ jsToString (JsValue.str "true") = jsToString (JsValue.bool true) := by
  constructor <;> rfl

/-- C7, amended: `matchesArgValue` decides every scalar predicate by
stringified equality; `checkArgValue` does so only for string predicates,
while deciding number predicates by numeric coercion of the actual value and
boolean predicates by strict (value and type) equality. -/
theorem C7_scalar_semantics (h : Host) (actual : JsValue) (p : String) :
    (∀ s : String, (checkArgValue h actual (.str s) p).map (fun r => r.passed) =
        .ok (jsToString actual == s))
    ∧ (∀ n : Int, (checkArgValue h actual (.num n) p).map (fun r => r.passed) =
        .ok (jsToNumber actual == some n))
    ∧ (∀ b : Bool, (checkArgValue h actual (.bool b) p).map (fun r => r.passed) =
        .ok (match actual with | .bool b2 => b2 == b | _ => false))
    ∧ (∀ s : String, matchesArgValue h actual (.str s) = .ok (jsToString actual == s))
    ∧ (∀ n : Int, matchesArgValue h actual (.num n) =
        .ok (jsToString actual == jsToString (.num n)))
    ∧ (∀ b : Bool, matchesArgValue h actual (.bool b) =
        .ok (jsToString actual == jsToString (.bool b))) := by
  refine ⟨fun s => ?_, fun n => ?_, fun b => ?_, fun s => ?_, fun n => ?_, fun b => ?_⟩
  · simp only [checkArgValue, Except.map]
    split <;> rename_i hc <;> simp_all [ok, fail]
  · simp only [checkArgValue, Except.map]
    split <;> rename_i hc <;> simp_all [ok, fail]
  · simp only [checkArgValue, Except.map]
    split <;> rename_i hc <;> simp_all [ok, fail]
  · simp [matchesArgValue]
  · simp [matchesArgValue]
  · simp [matchesArgValue]

/-- Skipping every condition of an unmatched prefix. -/
theorem firstMatch_append_of_unmatched (h : Host) (args : JsValue)
    (pre rest : List MockCondition)
    (hpre : ∀ c2 ∈ pre, argsMatchCondition h args c2.when = .ok false) :
    firstMatchingCondition h args (pre ++ rest) = firstMatchingCondition h args rest := by
  induction pre with
  | nil => rfl
  | cons c pre ih =>
    have hc := hpre c (List.mem_cons_self c pre)
    simp only [List.cons_append, firstMatchingCondition, hc, Except.bind, bind]
    exact ih (fun c2 hc2 => hpre c2 (List.mem_cons_of_mem c hc2))

/-- A matching condition at the head is taken. -/
theorem firstMatch_hit (h : Host) (args : JsValue) (c : MockCondition)
    (post : List MockCondition) (hc : argsMatchCondition h args c.when = .ok true) :
    firstMatchingCondition h args (c :: post) = .ok (some c.ret) := by
  simp [firstMatchingCondition, hc, Except.bind, bind]

/-- No condition matching means no result. -/
theorem firstMatch_none (h : Host) (args : JsValue) (conds : List MockCondition)
    (hall : ∀ c ∈ conds, argsMatchCondition h args c.when = .ok false) :
    firstMatchingCondition h args conds = .ok none := by
  induction conds with
  | nil => rfl
  | cons c rest ih =>
    have hc := hall c (List.mem_cons_self c rest)
    simp only [firstMatchingCondition, hc, Except.bind, bind]
    exact ih (fun c2 hc2 => hall c2 (List.mem_cons_of_mem c hc2))

/-- C3: for a Conditional mock rule (non-empty condition list, no error
field), resolution is first-match-wins — the `return` of the earliest
condition whose predicate-map fully matches is the result, irrespective of
the later conditions; if no condition matches, the declared default's return
is used; and with no default, the result is the diagnostic payload naming the
unmatched arguments. -/
theorem conditional_first_match_wins (h : Host) (mock : MockDefinition) (args : JsValue)
    (conds : List MockCondition)
    (herr : mock.error = none)
    (hconds : mock.conditions = some conds)
    (hne : conds ≠ []) :
    (∀ (pre : List MockCondition) (c : MockCondition) (post : List MockCondition),
      conds = pre ++ c :: post →
      (∀ c2 ∈ pre, argsMatchCondition h args c2.when = .ok false) →
      argsMatchCondition h args c.when = .ok true →
      resolveMockDefinition h mock args = .ok c.ret)
    ∧ ((∀ c ∈ conds, argsMatchCondition h args c.when = .ok false) →
       ∀ d, mock.dflt = some d → resolveMockDefinition h mock args = .ok d.ret)
    ∧ ((∀ c ∈ conds, argsMatchCondition h args c.when = .ok false) →
       mock.dflt = none →
       resolveMockDefinition h mock args =
         .ok (.obj [("error",
           .str ("No matching mock condition for args: " ++ jsonStringify args))])) := by
  have hlen : 0 < conds.length := List.length_pos.mpr hne
  refine ⟨?_, ?_, ?_⟩
  · intro pre c post hsplit hpre hc
    simp only [resolveMockDefinition, herr, jsStrOptTruthy, hconds, Option.getD_some,
      hlen, if_true, hsplit]
    rw [firstMatch_append_of_unmatched h args pre (c :: post) hpre,
      firstMatch_hit h args c post hc]
    simp
  · intro hall d hd
    simp only [resolveMockDefinition, herr, jsStrOptTruthy, hconds, Option.getD_some,
      hlen, if_true, hd]
    rw [firstMatch_none h args conds hall]
    simp
  · intro hall hd
    simp only [resolveMockDefinition, herr, jsStrOptTruthy, hconds, Option.getD_some,
      hlen, if_true, hd]
    rw [firstMatch_none h args conds hall]
    simp

/-- First condition of the overlapping-conditions instantiation. -/
def c3cond1 : MockCondition := ⟨[("destination", .obj [("contains", .str "Mal")])], .str "h1"⟩

/-- Second, also-matching condition of the instantiation. -/
def c3cond2 : MockCondition :=
  ⟨[("destination", .obj [("contains", .str "Maldives")])], .str "h2"⟩

/-- A conditional mock whose two conditions both match the sample args. -/
def c3mock : MockDefinition := { conditions := some [c3cond1, c3cond2] }

/-- Sample parsed arguments matching both conditions. -/
def c3args : JsValue := .obj [("destination", .str "Maldives")]

/-- Witness: with two overlapping matching conditions the earliest wins. -/
theorem conditional_first_match_wins_witness :
    resolveMockDefinition sampleHost c3mock c3args = .ok (JsValue.str "h1") :=
  (conditional_first_match_wins sampleHost c3mock c3args [c3cond1, c3cond2] rfl rfl
      (by simp)).1 [] c3cond1 [c3cond2] rfl (by simp) (by rfl)

/-- When every regex pattern compiles, the resolver-side matcher is total. -/
theorem matchesArgValue_total (h : Host) (hre : ∀ p, (h.compileRegex p).isSome = true)
    (actual expected : JsValue) : ∃ b, matchesArgValue h actual expected = .ok b := by
  cases expected with
  | obj fields =>
    simp only [matchesArgValue]
    split_ifs <;> try exact ⟨_, rfl⟩
    · obtain ⟨re, hcr⟩ := Option.isSome_iff_exists.mp
        (hre (jsToString (objGet fields "matches")))
      rw [hcr]
      exact ⟨_, rfl⟩
  | null => exact ⟨_, rfl⟩
  | undefined => exact ⟨_, rfl⟩
  | bool b => exact ⟨_, rfl⟩
  | num n => exact ⟨_, rfl⟩
  | str s => exact ⟨_, rfl⟩
  | arr xs => exact ⟨_, rfl⟩

/-- Property access is total off null/undefined. -/
theorem jsGet_total (args : JsValue) (k : String)
    (hn : args ≠ JsValue.null) (hu : args ≠ JsValue.undefined) :
    ∃ v, jsGet args k = .ok v := by
  cases args with
  | null => exact absurd rfl hn
  | undefined => exact absurd rfl hu
  | obj fields => exact ⟨_, rfl⟩
  | arr xs =>
    simp only [jsGet]
    split_ifs <;> try exact ⟨_, rfl⟩
    cases digitsToNat k.data <;> exact ⟨_, rfl⟩
  | str s =>
    simp only [jsGet]
    split_ifs <;> try exact ⟨_, rfl⟩
    cases digitsToNat k.data <;> exact ⟨_, rfl⟩
  | bool b => exact ⟨_, rfl⟩
  | num n => exact ⟨_, rfl⟩

/-- Predicate-map evaluation is total under the same conditions. -/
theorem argsMatchCondition_total (h : Host) (hre : ∀ p, (h.compileRegex p).isSome = true)
    (args : JsValue) (hn : args ≠ JsValue.null) (hu : args ≠ JsValue.undefined) :
    ∀ cond : List (String × JsValue), ∃ b, argsMatchCondition h args cond = .ok b
  | [] => ⟨true, rfl⟩
  | (k, e) :: rest => by
    obtain ⟨v, hv⟩ := jsGet_total args k hn hu
    obtain ⟨b, hb⟩ := matchesArgValue_total h hre v e
    cases b with
    | false =>
      exact ⟨false, by simp [argsMatchCondition, hv, hb, Except.bind, bind]⟩
    | true =>
      obtain ⟨b2, hb2⟩ := argsMatchCondition_total h hre args hn hu rest
      exact ⟨b2, by simp [argsMatchCondition, hv, hb, hb2, Except.bind, bind]⟩

/-- The condition scan is total under the same conditions. -/
theorem firstMatchingCondition_total (h : Host) (hre : ∀ p, (h.compileRegex p).isSome = true)
    (args : JsValue) (hn : args ≠ JsValue.null) (hu : args ≠ JsValue.undefined) :
    ∀ conds : List MockCondition, ∃ r, firstMatchingCondition h args conds = .ok r
  | [] => ⟨none, rfl⟩
  | c :: rest => by
    obtain ⟨b, hb⟩ := argsMatchCondition_total h hre args hn hu c.when
    cases b with
    | true => exact ⟨some c.ret, by simp [firstMatchingCondition, hb, Except.bind, bind]⟩
    | false =>
      obtain ⟨r, hr⟩ := firstMatchingCondition_total h hre args hn hu rest
      exact ⟨r, by simp [firstMatchingCondition, hb, hr, Except.bind, bind]⟩

/-- Mock-definition resolution is total under the same conditions. -/
theorem resolveMockDefinition_total (h : Host) (hre : ∀ p, (h.compileRegex p).isSome = true)
    (mock : MockDefinition) (args : JsValue)
    (hn : args ≠ JsValue.null) (hu : args ≠ JsValue.undefined) :
    ∃ v, resolveMockDefinition h mock args = .ok v := by
  simp only [resolveMockDefinition]
  split_ifs <;> try exact ⟨_, rfl⟩
  · obtain ⟨r, hr⟩ := firstMatchingCondition_total h hre args hn hu (mock.conditions.getD [])
    rw [hr]
    cases r with
    | some v => exact ⟨_, rfl⟩
    | none => cases mock.dflt <;> exact ⟨_, rfl⟩
  · cases mock.ret <;> exact ⟨_, rfl⟩

/-- Payload computation is total under the same conditions. -/
theorem mockContentFor_total (h : Host) (hre : ∀ p, (h.compileRegex p).isSome = true)
    (sm : Option StepMock) (toolName : String) (args : JsValue)
    (hn : args ≠ JsValue.null) (hu : args ≠ JsValue.undefined) :
    ∃ s, mockContentFor h sm toolName args = .ok s := by
  cases sm with
  | none =>
    simp only [mockContentFor, Except.bind, bind]
    exact ⟨_, rfl⟩
  | some table =>
    cases hl : stepMockLookup table toolName with
    | none =>
      simp only [mockContentFor, hl, Except.bind, bind]
      exact ⟨_, rfl⟩
    | some entry =>
      cases entry with
      | raw v =>
        simp only [mockContentFor, hl, Except.bind, bind]
        cases v <;> exact ⟨_, rfl⟩
      | defn d =>
        obtain ⟨v, hv⟩ := resolveMockDefinition_total h hre d args hn hu
        simp only [mockContentFor, hl, hv, Except.bind, bind]
        cases v <;> exact ⟨_, rfl⟩

/-- The resolver loop is total when every pattern compiles and no argument
text parses to JSON null (or undefined). -/
theorem resolveMocksLoop_total (h : Host) (hre : ∀ p, (h.compileRegex p).isSome = true)
    (sm : Option StepMock) :
    ∀ (calls : List ToolCall) (results : List (String × String)),
    (∀ call ∈ calls, ∀ v, h.parseJson call.function.arguments = some v →
      v ≠ JsValue.null ∧ v ≠ JsValue.undefined) →
    ∃ res, resolveMocksLoop h sm calls results = .ok res
  | [], results, _ => ⟨results, rfl⟩
  | call :: rest, results, hargs => by
    have hargsv : ((h.parseJson call.function.arguments).getD (.obj [])) ≠ JsValue.null ∧
        ((h.parseJson call.function.arguments).getD (.obj [])) ≠ JsValue.undefined := by
      cases hp : h.parseJson call.function.arguments with
      | none => simp
      | some v =>
        simp only [Option.getD_some]
        exact hargs call (List.mem_cons_self call rest) v hp
    obtain ⟨s, hs⟩ := mockContentFor_total h hre sm call.function.name
      ((h.parseJson call.function.arguments).getD (.obj [])) hargsv.1 hargsv.2
    obtain ⟨res, hres⟩ := resolveMocksLoop_total h hre sm rest (mapSet results call.id s)
      (fun c hc => hargs c (List.mem_cons_of_mem call hc))
    exact ⟨res, by simp only [resolveMocksLoop, hs, hres, Except.bind, bind]⟩

/-- An invocation whose argument text does not parse as JSON. -/
def c2call : ToolCall := ⟨"tc1", ⟨"lookup", "not json"⟩⟩

/-- A conditional mock whose predicate-map carries the invalid pattern `(`. -/
def c2mockTable : StepMock :=
  [("lookup", .defn { conditions := some [⟨[("a", .obj [("matches", .str "(")])], .null⟩] })]

/-- C2, counterexample: resolveMocks raises — on a Conditional rule whose
predicate-map carries a Matches pattern that does not compile (`(`, a
SyntaxError in the host), the resolver propagates the throw instead of
returning a map. -/
theorem C2_counterexample :
    resolveMocks sampleHost [c2call] (some c2mockTable) = .error (regexErrorMsg "(") := rfl

/-- C2, amended: resolveMocks never raises provided every Matches pattern it
evaluates compiles and no invocation's argument text parses to JSON null;
and when an invocation's argument text does not parse as JSON at all, the
resolved payload for that invocation is the one computed from an empty
argument set, for every mock rule shape. -/
theorem resolver_never_raises :
    (∀ (h : Host) (toolCalls : List ToolCall) (sm : Option StepMock),
      (∀ p, (h.compileRegex p).isSome = true) →
      (∀ call ∈ toolCalls, ∀ v, h.parseJson call.function.arguments = some v →
         v ≠ JsValue.null ∧ v ≠ JsValue.undefined) →
      ∃ res, resolveMocks h toolCalls sm = .ok res)
    ∧ (∀ (h : Host) (id name brokenArgs : String) (sm : Option StepMock),
      h.parseJson brokenArgs = none →
      h.parseJson "\x7b\x7d" = some (.obj []) →
      resolveMocks h [⟨id, ⟨name, brokenArgs⟩⟩] sm =
        resolveMocks h [⟨id, ⟨name, "\x7b\x7d"⟩⟩] sm) := by
  constructor
  · intro h toolCalls sm hre hargs
    exact resolveMocksLoop_total h hre sm toolCalls [] hargs
  · intro h id name brokenArgs sm hfail hempty
    simp only [resolveMocks, resolveMocksLoop, hfail, hempty, Option.getD_some,
      Option.getD_none]

/-- A host on which every pattern compiles and nothing parses. -/
def totalHost : Host := {
  compileRegex := fun p => some (fun s => strIncludes s p),
  parseJson := fun _ => none }

/-- Witness for the amended C2 theorem at concrete inputs. -/
theorem resolver_never_raises_witness :
    (∃ res, resolveMocks totalHost [c2call] (some c2mockTable) = .ok res)
    ∧ resolveMocks sampleHost [⟨"tc1", ⟨"t", "not json"⟩⟩] none =
        resolveMocks sampleHost [⟨"tc1", ⟨"t", "\x7b\x7d"⟩⟩] none :=
  ⟨resolver_never_raises.1 totalHost [c2call] (some c2mockTable) (fun _ => rfl)
      (fun call hc v hv => absurd hv (by simp [totalHost])),
   resolver_never_raises.2 sampleHost "tc1" "t" "not json" none rfl rfl⟩

/-- C8: if a response check is declared and the step has no text reply,
`evaluateStepAssertions` emits exactly one failing response Outcome, appended
after the tool-call outcomes (not one per declared response check); if no
response expectation is declared, no response Outcomes are emitted at all —
the result does not depend on the reply. -/
theorem response_outcomes (h : Host) (expect : StepExpectation) (calls : List ToolCall)
    (ra : ResponseAssertion) (resp : Option String) :
    (expect.response = some ra →
      evaluateStepAssertions h (some expect) calls none =
        (evaluateStepAssertions h (some { expect with response := none }) calls none).map
          (fun rs => rs ++ [fail "Expected a text response but got none"]))
    ∧ (expect.response = none →
      evaluateStepAssertions h (some expect) calls resp =
        evaluateStepAssertions h (some expect) calls none) := by
  constructor
  · intro hresp
    cases hc : expect.tool_calls with
    | none =>
      simp [evaluateStepAssertions, hresp, hc, Except.map]
    | some tcs =>
      cases htc : evalToolCallList h tcs calls with
      | error e => simp [evaluateStepAssertions, hresp, hc, htc, Except.map]
      | ok tcResults => simp [evaluateStepAssertions, hresp, hc, htc, Except.map]
  · intro hresp
    cases hc : expect.tool_calls with
    | none =>
      simp [evaluateStepAssertions, hresp, hc]
    | some tcs =>
      cases htc : evalToolCallList h tcs calls with
      | error e => simp [evaluateStepAssertions, hresp, hc, htc]
      | ok tcResults => simp [evaluateStepAssertions, hresp, hc, htc]

/-- Witness for the C8 theorem at concrete inputs. -/
theorem response_outcomes_witness :
    (({ response := some {} } : StepExpectation).response = some ({} : ResponseAssertion)
      ∧ evaluateStepAssertions sampleHost (some { response := some {} }) [] none =
        (evaluateStepAssertions sampleHost
            (some { ({ response := some {} } : StepExpectation) with response := none }) [] none).map
          (fun rs => rs ++ [fail "Expected a text response but got none"]))
    ∧ (({} : StepExpectation).response = none
      ∧ evaluateStepAssertions sampleHost (some {}) [] (some "hello") =
        evaluateStepAssertions sampleHost (some {}) [] none) :=
  ⟨⟨rfl, (response_outcomes sampleHost { response := some {} } [] {} none).1 rfl⟩,
   ⟨rfl, (response_outcomes sampleHost {} [] {} (some "hello")).2 rfl⟩⟩

/-- The greedy tool_order scan succeeds exactly when the expected names form
a subsequence of the observed names (from the cursor on). -/
theorem toolOrderLoop_sub (calls : List String) :
    ∀ (order : List String) (s : Nat),
      (toolOrderLoop calls order s).2 = true ↔ List.Sublist order (calls.drop s) := by
  intro order
  induction order with
  | nil => intro s; simp [toolOrderLoop]
  | cons e rest ih =>
    suffices aux : ∀ (d : List String) (s : Nat), calls.drop s = d →
        ((toolOrderLoop calls (e :: rest) s).2 = true ↔ List.Sublist (e :: rest) d) by
      intro s
      exact aux (calls.drop s) s rfl
    intro d
    induction d with
    | nil =>
      intro s hd
      simp [toolOrderLoop, idxOfFrom, hd, idxOfFromAux]
    | cons c d' ihd =>
      intro s hd
      have hd' : calls.drop (s + 1) = d' := by
        rw [← List.tail_drop, hd, List.tail_cons]
      by_cases hce : c = e
      · subst hce
        have hidx : idxOfFrom calls c s = some s := by
          simp [idxOfFrom, hd, idxOfFromAux]
        simp only [toolOrderLoop, hidx]
        rw [ih (s + 1), hd']
        exact List.cons_sublist_cons.symm
      · have hidx : idxOfFrom calls e s = idxOfFrom calls e (s + 1) := by
          simp [idxOfFrom, hd, hd', idxOfFromAux, hce]
        have hstep : (toolOrderLoop calls (e :: rest) s).2 =
            (toolOrderLoop calls (e :: rest) (s + 1)).2 := by
          simp only [toolOrderLoop, hidx]
          cases idxOfFrom calls e (s + 1) <;> simp [toolOrderLoop]
        rw [hstep, ihd (s + 1) hd']
        constructor
        · intro hsub
          exact hsub.trans (List.sublist_cons_self c d')
        · intro hsub
          rcases List.cons_sublist_cons'.mp hsub with h1 | ⟨h2, _⟩
          · exact h1
          · exact absurd h2.symm hce

/-- The scan pushes nothing on success and exactly one failing Outcome,
naming the unmet name, on failure. -/
theorem toolOrderLoop_shape (calls : List String) :
    ∀ (order : List String) (s : Nat),
      ((toolOrderLoop calls order s).2 = true → (toolOrderLoop calls order s).1 = [])
      ∧ ((toolOrderLoop calls order s).2 = false →
          ∃ e idx, e ∈ order ∧ (toolOrderLoop calls order s).1 = [fail (toolOrderFailMsg e idx)]) := by
  intro order
  induction order with
  | nil => intro s; simp [toolOrderLoop]
  | cons e rest ih =>
    intro s
    cases hidx : idxOfFrom calls e s with
    | none =>
      refine ⟨?_, ?_⟩ <;> simp only [toolOrderLoop, hidx]
      · intro hc; cases hc
      · intro _
        exact ⟨e, s, List.mem_cons_self e rest, rfl⟩
    | some f =>
      refine ⟨?_, ?_⟩ <;> simp only [toolOrderLoop, hidx]
      · exact (ih (f + 1)).1
      · intro hfalse
        obtain ⟨e2, idx, hmem, heq⟩ := (ih (f + 1)).2 hfalse
        exact ⟨e2, idx, List.mem_cons_of_mem e hmem, heq⟩

/-- C4: the whole-test tool_order check is a greedy left-to-right subsequence
search: it yields exactly one Outcome, which passes iff the expected names
are a subsequence of the observed cross-step invocation names, and on failure
is the single failing Outcome naming the unmet name; observed
[search, details, book] against expected [search, book] passes, and observed
[book, search] against expected [search, book] fails. -/
theorem tool_order_subsequence :
    (∀ (order : List String) (calls : List ToolCall) (turns tokens : Nat),
      (evaluateGlobalAssertions { tool_order := some order } calls turns tokens).length = 1
      ∧ ((evaluateGlobalAssertions { tool_order := some order } calls turns tokens).all
            (fun r => r.passed) = true
          ↔ List.Sublist order (calls.map (fun c => c.function.name)))
      ∧ ((evaluateGlobalAssertions { tool_order := some order } calls turns tokens).all
            (fun r => r.passed) = false →
          ∃ e idx, e ∈ order ∧
            evaluateGlobalAssertions { tool_order := some order } calls turns tokens =
              [fail (toolOrderFailMsg e idx)]))
    ∧ (evaluateGlobalAssertions { tool_order := some ["search", "book"] }
         [⟨"1", ⟨"search", "\x7b\x7d"⟩⟩, ⟨"2", ⟨"details", "\x7b\x7d"⟩⟩,
          ⟨"3", ⟨"book", "\x7b\x7d"⟩⟩] 3 0).all (fun r => r.passed) = true
    ∧ (evaluateGlobalAssertions { tool_order := some ["search", "book"] }
         [⟨"1", ⟨"book", "\x7b\x7d"⟩⟩, ⟨"2", ⟨"search", "\x7b\x7d"⟩⟩] 2 0).all
         (fun r => r.passed) = false := by
  refine ⟨?_, by rfl, by rfl⟩
  intro order calls turns tokens
  have hsub := toolOrderLoop_sub (calls.map fun c => c.function.name) order 0
  have hshape := toolOrderLoop_shape (calls.map fun c => c.function.name) order 0
  rw [List.drop_zero] at hsub
  cases hloop : (toolOrderLoop (calls.map fun c => c.function.name) order 0).2 with
  | true =>
    have h1 := hshape.1 hloop
    refine ⟨?_, ?_, ?_⟩
    · simp [evaluateGlobalAssertions, checkNumeric, hloop, h1]
    · rw [← hsub, hloop]
      simp [evaluateGlobalAssertions, checkNumeric, hloop, h1, ok]
    · intro hfalse
      exfalso
      simp [evaluateGlobalAssertions, checkNumeric, hloop, h1, ok] at hfalse
  | false =>
    obtain ⟨e, idx, hmem, heq⟩ := hshape.2 hloop
    refine ⟨?_, ?_, ?_⟩
    · simp [evaluateGlobalAssertions, checkNumeric, hloop, heq]
    · rw [← hsub, hloop]
      simp [evaluateGlobalAssertions, checkNumeric, hloop, heq, fail]
    · intro _
      exact ⟨e, idx, hmem, by simp [evaluateGlobalAssertions, checkNumeric, hloop, heq]⟩

/-- Witness exercising the failing branch of the C4 theorem. -/
theorem tool_order_subsequence_witness :
    ∃ e idx, e ∈ ["search"] ∧
      evaluateGlobalAssertions { tool_order := some ["search"] } [] 0 0 =
        [fail (toolOrderFailMsg e idx)] :=
  (tool_order_subsequence.1 ["search"] [] 0 0).2.2 (by rfl)

/-- C9, counterexample: on the null predicate (declared argument key with a
null value) the Assertion Engine fails the check while the Mock Resolver's
matcher treats it as a match — the two evaluators are not equivalent on
absent/null predicates. -/
theorem C9_counterexample :
    (checkArgValue sampleHost (JsValue.str "x") JsValue.null "p").map (fun r => r.passed) =
      Except.ok false
    ∧ matchesArgValue sampleHost (JsValue.str "x") JsValue.null = Except.ok true :=
  ⟨rfl, rfl⟩

/-- Witness for the C9 agreement theorem at a concrete in-domain input. -/
theorem value_matcher_agreement_witness :
    valueMatcherAgreeDomain (JsValue.str "ab") (JsValue.obj [("contains", JsValue.str "a")])
    ∧ (checkArgValue sampleHost (JsValue.str "ab")
         (JsValue.obj [("contains", JsValue.str "a")]) "p").map (fun r => r.passed) =
       matchesArgValue sampleHost (JsValue.str "ab")
         (JsValue.obj [("contains", JsValue.str "a")]) :=
  ⟨by simp [valueMatcherAgreeDomain],
   value_matcher_agreement sampleHost (JsValue.str "ab")
     (JsValue.obj [("contains", JsValue.str "a")]) "p"
     (by simp [valueMatcherAgreeDomain])⟩

/-- When the boundary returns a reply with tool invocations on every call and
mock resolution succeeds, the inner loop consumes all its fuel, one boundary
call per unit, and never assigns a text reply. -/
theorem stepLoop_all_tool_calls (ctx : ExecCtx) (cfg : Config) (tools : List ToolDefinition)
    (mock : Option StepMock)
    (hllm : ∀ msgs, ∃ resp c, ctx.llm msgs tools = .ok resp ∧
        resp.choices.head? = some c ∧ (c.message.tool_calls.getD []) ≠ [])
    (hmock : ∀ tcs, ∃ mr, resolveMocks ctx.host tcs mock = .ok mr) :
    ∀ (fuel : Nat) (st : StepState), ∃ st2,
      stepLoop ctx cfg tools mock fuel st = .ok st2 ∧
      st2.turnCount = st.turnCount + fuel ∧
      st2.assistantResponse = st.assistantResponse := by
  intro fuel
  induction fuel with
  | zero => intro st; exact ⟨st, rfl, by simp, rfl⟩
  | succ n ih =>
    intro st
    obtain ⟨resp, c, hresp, hchoice, htc⟩ := hllm st.messages
    have hlen : 0 < (c.message.tool_calls.getD []).length := List.length_pos.mpr htc
    obtain ⟨mr, hmr⟩ := hmock (c.message.tool_calls.getD [])
    cases husage : resp.usage with
    | none =>
      obtain ⟨st2, hloop, hturn, hresp2⟩ := ih ({ st with
        totalTurns := st.totalTurns + 1, turnCount := st.turnCount + 1,
        totalInputTokens := st.totalInputTokens + estimateTokens (messagesText st.messages),
        messages := (st.messages ++
          [({ role := .assistant, content := c.message.content,
              tool_calls := some (c.message.tool_calls.getD []) } : ChatMessage)]) ++
          (c.message.tool_calls.getD []).map (fun tc =>
            ({ role := .tool,
               content := some ((mapGet mr tc.id).getD
                 (jsonStringify (.obj [("result", .str "ok")]))),
               tool_call_id := some tc.id } : ChatMessage)),
        stepToolCalls := st.stepToolCalls ++ c.message.tool_calls.getD [],
        allToolCalls := st.allToolCalls ++ c.message.tool_calls.getD [] })
      refine ⟨st2, ?_, ?_, hresp2⟩
      · simp only [stepLoop, hresp, husage, hchoice, hlen, if_true, hmr,
          Except.bind, bind, Option.isSome_none, Bool.false_eq_true, if_false]
        exact hloop
      · rw [hturn]
        simp
        omega
    | some u =>
      obtain ⟨st2, hloop, hturn, hresp2⟩ := ih ({ st with
        totalTurns := st.totalTurns + 1, turnCount := st.turnCount + 1,
        totalInputTokens := st.totalInputTokens + u.prompt_tokens,
        totalOutputTokens := (st.totalOutputTokens + u.completion_tokens) +
          estimateTokens (toolCallsJson (c.message.tool_calls.getD [])),
        messages := (st.messages ++
          [({ role := .assistant, content := c.message.content,
              tool_calls := some (c.message.tool_calls.getD []) } : ChatMessage)]) ++
          (c.message.tool_calls.getD []).map (fun tc =>
            ({ role := .tool,
               content := some ((mapGet mr tc.id).getD
                 (jsonStringify (.obj [("result", .str "ok")]))),
               tool_call_id := some tc.id } : ChatMessage)),
        stepToolCalls := st.stepToolCalls ++ c.message.tool_calls.getD [],
        allToolCalls := st.allToolCalls ++ c.message.tool_calls.getD [] })
      refine ⟨st2, ?_, ?_, hresp2⟩
      · simp only [stepLoop, hresp, husage, hchoice, hlen, if_true, hmr,
          Except.bind, bind, Option.isSome_some, if_true]
        exact hloop
      · rw [hturn]
        simp
        omega

/-- C5: with a configured maximum of N ≥ 1 turns and a model boundary that
returns tool invocations on every call (and mock resolution that does not
fault), the inner step loop makes exactly N boundary calls, then exits with
no fault and no recorded text reply, so a declared response expectation for
the step produces the single failing Outcome through the Assertion Engine
rather than a distinct error. -/
theorem turn_bound_silent (ctx : ExecCtx) (cfg : Config) (tools : List ToolDefinition)
    (mock : Option StepMock) (st : StepState) (N : Nat)
    (hN : cfg.settings.max_turns = N) (_hN1 : 1 ≤ N)
    (hstart : st.turnCount = 0) (hresp0 : st.assistantResponse = none)
    (hllm : ∀ msgs, ∃ resp c, ctx.llm msgs tools = .ok resp ∧
        resp.choices.head? = some c ∧ (c.message.tool_calls.getD []) ≠ [])
    (hmock : ∀ tcs, ∃ mr, resolveMocks ctx.host tcs mock = .ok mr) :
    ∃ st2, stepLoop ctx cfg tools mock cfg.settings.max_turns st = .ok st2 ∧
      st2.turnCount = N ∧ st2.assistantResponse = none ∧
      ∀ (h2 : Host) (ra : ResponseAssertion),
        evaluateStepAssertions h2 (some { response := some ra }) st2.stepToolCalls
          st2.assistantResponse = .ok [fail "Expected a text response but got none"] := by
  obtain ⟨st2, hloop, hturn, hresp2⟩ :=
    stepLoop_all_tool_calls ctx cfg tools mock hllm hmock cfg.settings.max_turns st
  refine ⟨st2, hloop, by rw [hturn, hstart, hN]; simp, ?_, ?_⟩
  · rw [hresp2, hresp0]
  · intro h2 ra
    rw [hresp2, hresp0]
    simp [evaluateStepAssertions]

/-- Step iteration splits over list append; a fault in the first part hides
the second entirely. -/
theorem stepsLoop_append (ctx : ExecCtx) (cfg : Config) (tools : List ToolDefinition)
    (l1 l2 : List TestStep) (idx : Nat) (acc : Accum) :
    stepsLoop ctx cfg tools (l1 ++ l2) idx acc =
      match stepsLoop ctx cfg tools l1 idx acc with
      | .done acc2 => stepsLoop ctx cfg tools l2 (idx + l1.length) acc2
      | .fault m acc2 => .fault m acc2 := by
  induction l1 generalizing idx acc with
  | nil => simp [stepsLoop]
  | cons step rest ih =>
    have harith : idx + (step :: rest).length = (idx + 1) + rest.length := by
      simp [List.length_cons]; omega
    rw [harith]
    simp only [List.cons_append, List.append_eq, stepsLoop]
    by_cases hd : isDeferredStep step
    · rw [if_pos hd, if_pos hd]
      exact ih (idx + 1) acc
    · rw [if_neg hd, if_neg hd]
      cases runStep ctx cfg tools step idx acc with
      | ok acc2 => simp only []; exact ih (idx + 1) acc2
      | error m => rfl

/-- An error from `runStep` never pushes a `StepResult` for the faulting
step: the carried accumulator's step results are those from before it. -/
theorem runStep_error_stepResults (ctx : ExecCtx) (cfg : Config)
    (tools : List ToolDefinition) (step : TestStep) (stepIdx : Nat) (acc : Accum)
    (m : String) (accE : Accum)
    (h : runStep ctx cfg tools step stepIdx acc = .error (m, accE)) :
    accE.stepResults = acc.stepResults := by
  simp only [runStep] at h
  split at h
  · simp only [Except.error.injEq, Prod.mk.injEq] at h
    rw [← h.2]
    rfl
  · split at h
    · simp only [Except.error.injEq, Prod.mk.injEq] at h
      rw [← h.2]
      rfl
    · simp at h

/-- C6: when the steps before step k complete without fault accumulating
state `accA` and step k's processing faults with message m (the catch
observing locals `accE`), `executeTest` returns a Result marked failed that
carries the fault description, the token totals as mutated up to the throw
(including completed turns of the faulting step), and exactly the step
Outcomes accumulated before k (`accE.stepResults = accA.stepResults`) — all
independent of the steps after k, which are never executed. -/
theorem fault_aborts (ctx : ExecCtx) (cfg : Config) (test : TestDefinition)
    (pre : List TestStep) (stepK : TestStep) (post : List TestStep)
    (sysPrompt : String) (accA accE : Accum) (m : String)
    (hprompt : resolveSystemPrompt ctx test.system_prompt cfg = .ok sysPrompt)
    (hsteps : test.steps = pre ++ stepK :: post)
    (hpre : stepsLoop ctx cfg (test.tools.getD []) pre 0
        { messages := [({ role := .system, content := some sysPrompt } : ChatMessage)] } =
        .done accA)
    (hdef : isDeferredStep stepK = false)
    (hfault : runStep ctx cfg (test.tools.getD []) stepK pre.length accA =
        .error (m, accE)) :
    executeTest ctx test cfg =
      { name := test.name, passed := false, steps := accE.stepResults,
        globalAssertions := [],
        totalTokens := accE.totalInputTokens + accE.totalOutputTokens,
        error := some m }
    ∧ accE.stepResults = accA.stepResults := by
  constructor
  · simp only [executeTest, hprompt, hsteps]
    rw [stepsLoop_append, hpre]
    simp only [stepsLoop, hdef, Bool.false_eq_true, if_false, Nat.zero_add, hfault]
  · exact runStep_error_stepResults ctx cfg (test.tools.getD []) stepK pre.length accA
      m accE hfault

/-- The successful first-turn reply of the C6 instantiation: a tool call
with reported usage. -/
def c6completion : ChatCompletionResponse :=
  { choices := [{ message :=
      { role := .assistant, content := none,
        tool_calls := some [⟨"t1", ⟨"get", "\x7b\x7d"⟩⟩] } }],
    usage := some { prompt_tokens := 10, completion_tokens := 5, total_tokens := 15 } }

/-- A context whose model boundary answers the first call of a step with a
tool invocation and faults on the second. -/
def c6ctx : ExecCtx := {
  host := totalHost,
  llm := fun msgs _ => if msgs.length ≤ 2 then .ok c6completion else .error "boom",
  fetchPrompt := fun _ _ => .ok "never" }

/-- A single ordinary step. -/
def c6step : TestStep := { user := some "hi" }

/-- A one-step test used to instantiate the fault theorem. -/
def c6test : TestDefinition := {
  name := "fault test", system_prompt := .inline "sys", steps := [c6step] }

/-- A two-turn configuration. -/
def c6cfg : Config := { settings := { timeout := 0, max_turns := 2 } }

/-- The locals the catch observes in the C6 instantiation: turn 1 completed
(tokens and the tool invocation recorded), turn 2 faulted. -/
def c6accE : Accum :=
  { messages :=
      [({ role := .system, content := some "sys" } : ChatMessage),
       ({ role := .user, content := some "hi" } : ChatMessage),
       ({ role := .assistant, content := none,
          tool_calls := some [⟨"t1", ⟨"get", "\x7b\x7d"⟩⟩] } : ChatMessage),
       ({ role := .tool,
          content := some (jsonStringify
            (JsValue.obj [("result", JsValue.str "Mock not defined for tool: get")])),
          tool_call_id := some "t1" } : ChatMessage)],
    allToolCalls := [⟨"t1", ⟨"get", "\x7b\x7d"⟩⟩], stepResults := [],
    totalInputTokens := 10,
    totalOutputTokens := 5 + estimateTokens (toolCallsJson [⟨"t1", ⟨"get", "\x7b\x7d"⟩⟩]),
    totalTurns := 2 }

/-- Witness: a boundary fault on turn 2 of step 1 yields a failed Result
carrying the fault message and the tokens of the completed turn 1, with no
step Outcomes. -/
theorem fault_aborts_witness :
    (executeTest c6ctx c6test c6cfg =
      { name := "fault test", passed := false, steps := c6accE.stepResults,
        globalAssertions := [],
        totalTokens := c6accE.totalInputTokens + c6accE.totalOutputTokens,
        error := some "boom" }
    ∧ c6accE.stepResults =
        ({ messages := [({ role := .system, content := some "sys" } : ChatMessage)] }
          : Accum).stepResults) :=
  fault_aborts c6ctx c6cfg c6test [] c6step [] "sys"
    { messages := [({ role := .system, content := some "sys" } : ChatMessage)] }
    c6accE "boom" rfl rfl rfl rfl (by rfl)

/-- A boundary reply carrying only (possibly empty) text. -/
def mkTextCompletion (c : Option String) (u : Option Usage) : ChatCompletionResponse :=
  { choices := [{ message := { role := .assistant, content := c } }], usage := u }

/-- A context whose boundary always returns the given text reply. -/
def mkTextCtx (host : Host) (fp : PromptmanSource → PromptmanConfig → Except String String)
    (c : Option String) (u : Option Usage) : ExecCtx :=
  { host := host, llm := fun _ _ => .ok (mkTextCompletion c u), fetchPrompt := fp }

/-- C10: a reply whose text content is the empty string is treated exactly
like a reply carrying neither tool invocations nor text: the inner loop
exits with the same resulting state, records no reply and appends no
assistant transcript entry, so a declared response expectation yields the
single failing expected-a-text-response Outcome. -/
theorem empty_text_like_no_reply (host : Host)
    (fp : PromptmanSource → PromptmanConfig → Except String String)
    (cfg : Config) (tools : List ToolDefinition) (mock : Option StepMock)
    (fuel : Nat) (st : StepState) (u : Option Usage) (ra : ResponseAssertion)
    (hresp0 : st.assistantResponse = none) :
    stepLoop (mkTextCtx host fp (some "") u) cfg tools mock (fuel + 1) st =
      stepLoop (mkTextCtx host fp none u) cfg tools mock (fuel + 1) st
    ∧ (∃ st2, stepLoop (mkTextCtx host fp (some "") u) cfg tools mock (fuel + 1) st = .ok st2 ∧
        st2.assistantResponse = none ∧ st2.messages = st.messages ∧
        st2.stepToolCalls = st.stepToolCalls ∧
        evaluateStepAssertions host (some { response := some ra }) st2.stepToolCalls
          st2.assistantResponse = .ok [fail "Expected a text response but got none"]) := by
  cases u with
  | none =>
    refine ⟨by simp [stepLoop, mkTextCtx, mkTextCompletion, Except.bind, bind,
      jsStrOptTruthy], ?_⟩
    refine ⟨{ st with
        totalInputTokens := st.totalInputTokens + estimateTokens (messagesText st.messages),
        totalTurns := st.totalTurns + 1, turnCount := st.turnCount + 1 },
      by simp [stepLoop, mkTextCtx, mkTextCompletion, Except.bind, bind, jsStrOptTruthy],
      hresp0, rfl, rfl, ?_⟩
    rw [hresp0]
    simp [evaluateStepAssertions]
  | some usage =>
    refine ⟨by simp [stepLoop, mkTextCtx, mkTextCompletion, Except.bind, bind,
      jsStrOptTruthy], ?_⟩
    refine ⟨{ st with
        totalInputTokens := st.totalInputTokens + usage.prompt_tokens,
        totalOutputTokens := st.totalOutputTokens + usage.completion_tokens,
        totalTurns := st.totalTurns + 1, turnCount := st.turnCount + 1 },
      by simp [stepLoop, mkTextCtx, mkTextCompletion, Except.bind, bind, jsStrOptTruthy],
      hresp0, rfl, rfl, ?_⟩
    rw [hresp0]
    simp [evaluateStepAssertions]

/-- A boundary that returns the same tool invocation on every call. -/
def c5llm : List ChatMessage → List ToolDefinition → Except String ChatCompletionResponse :=
  fun _ _ => .ok { choices := [{ message :=
    { role := .assistant, content := none,
      tool_calls := some [⟨"t1", ⟨"get", "\x7b\x7d"⟩⟩] } }], usage := none }

/-- Context for the C5 witness. -/
def c5ctx : ExecCtx := { host := totalHost, llm := c5llm, fetchPrompt := fun _ _ => .ok "" }

/-- Two-turn configuration for the C5 witness. -/
def c5cfg : Config := { settings := { timeout := 0, max_turns := 2 } }

/-- The fresh per-step state the executor starts the inner loop with. -/
def c5st : StepState :=
  { messages := [], stepToolCalls := [], allToolCalls := [],
    assistantResponse := none, totalInputTokens := 0, totalOutputTokens := 0,
    totalTurns := 0, turnCount := 0 }

/-- Witness: with max_turns = 2 and an always-tool-calling boundary the loop
makes exactly 2 calls and the response expectation fails. -/
theorem turn_bound_silent_witness :
    ∃ st2, stepLoop c5ctx c5cfg [] none c5cfg.settings.max_turns c5st = .ok st2 ∧
      st2.turnCount = 2 ∧ st2.assistantResponse = none ∧
      ∀ (h2 : Host) (ra : ResponseAssertion),
        evaluateStepAssertions h2 (some { response := some ra }) st2.stepToolCalls
          st2.assistantResponse = .ok [fail "Expected a text response but got none"] :=
  turn_bound_silent c5ctx c5cfg [] none c5st 2 rfl (by decide) (by rfl) (by rfl)
    (fun msgs => ⟨_, _, rfl, rfl, by simp [c5ctx, c5llm]⟩)
    (fun tcs => resolveMocksLoop_total totalHost (fun _ => rfl) none tcs []
      (fun call hc v hv => absurd hv (by simp [totalHost])))

/-- The fresh state used by the C10 witness. -/
def c10st : StepState :=
  { messages := [], stepToolCalls := [], allToolCalls := [],
    assistantResponse := none, totalInputTokens := 0, totalOutputTokens := 0,
    totalTurns := 0, turnCount := 0 }

/-- Configuration for the C10 witness. -/
def c10cfg : Config := { settings := { timeout := 0, max_turns := 2 } }

/-- Witness: one loop iteration on an empty-text reply equals the
neither-received case and produces the failing response Outcome. -/
theorem empty_text_like_no_reply_witness :
    stepLoop (mkTextCtx totalHost (fun _ _ => .ok "") (some "") none)
        c10cfg [] none (0 + 1) c10st =
      stepLoop (mkTextCtx totalHost (fun _ _ => .ok "") none none)
        c10cfg [] none (0 + 1) c10st
    ∧ (∃ st2, stepLoop (mkTextCtx totalHost (fun _ _ => .ok "") (some "") none)
          c10cfg [] none (0 + 1) c10st = .ok st2 ∧
        st2.assistantResponse = none ∧ st2.messages = c10st.messages ∧
        st2.stepToolCalls = c10st.stepToolCalls ∧
        evaluateStepAssertions totalHost (some { response := some {} }) st2.stepToolCalls
          st2.assistantResponse = .ok [fail "Expected a text response but got none"]) :=
  empty_text_like_no_reply totalHost (fun _ _ => .ok "") c10cfg [] none 0 c10st none {}
    (by rfl)

end Promptman
